import Mathlib

/-!
Verification development for the K12 SheerID verifier
(src/k12/sheerid_verifier.py and its callers).

Strings are modelled as lists of characters (type Str below).  Python
string operations used by the code (lowercasing for re.IGNORECASE and
str.lower, substring membership, startswith, join) are modelled by
executable functions on Str.  Lowercasing is modelled on ASCII code
points, which covers every literal the program compares against.
-/

/-- Python strings, modelled as lists of characters. -/
abbrev Str := List Char

/-- ASCII lowercasing on code points: maps 65..90 to 97..122. -/
def lowerN (n : Nat) : Nat := if 65 ≤ n ∧ n ≤ 90 then n + 32 else n

/-- Case-insensitive character equality, as used by re.IGNORECASE. -/
def ciEq (a b : Char) : Bool := lowerN a.toNat == lowerN b.toNat

/-- Membership in the character class [a-f0-9] under re.IGNORECASE:
digits, lowercase a..f, uppercase A..F. -/
def isHexChar (c : Char) : Bool :=
  let n := c.toNat
  (48 ≤ n && n ≤ 57) || (97 ≤ n && n ≤ 102) || (65 ≤ n && n ≤ 70)

/-- ASCII lowercasing of a character (Python str.lower on ASCII). -/
def toLowerChar (c : Char) : Char := Char.ofNat (lowerN c.toNat)

/-- Python str.lower, on ASCII data. -/
def toLowerStr (s : Str) : Str := s.map toLowerChar

/-- Python str.startswith with exact character equality. -/
def strLeads : Str → Str → Bool
  | [], _ => true
  | _ :: _, [] => false
  | p :: ps, b :: bs => p == b && strLeads ps bs

/-- Python substring membership (pat in s) with exact character equality. -/
def substrOf (pat : Str) : Str → Bool
  | [] => pat.isEmpty
  | b :: bs => strLeads pat (b :: bs) || substrOf pat bs

/-- Python sep.join(parts). -/
def joinWith (sep : Str) : List Str → Str
  | [] => []
  | [x] => x
  | x :: y :: rest => x ++ sep ++ joinWith sep (y :: rest)

/-- Greedy match of [a-f0-9]+ at the head of a string: the maximal hex
prefix, as captured by group 1 of the verificationId regex. -/
def hexRun : Str → Str
  | [] => []
  | c :: cs => if isHexChar c then c :: hexRun cs else []

/-- The literal part of the first regex in parse_verification_id. -/
def vidKey : Str := "verificationId=".data

/-- Case-insensitive literal match at the start of a string, returning
the remainder on success (one attempted regex-literal match). -/
def stripCI : Str → Str → Option Str
  | [], s => some s
  | _ :: _, [] => none
  | p :: ps, b :: bs => if ciEq p b then stripCI ps bs else none

/-- One attempted match of verificationId=([a-f0-9]+) at the head of the
string: the literal must match case-insensitively and be followed by at
least one hex character; returns the remainder after the literal. -/
def vidHit (s : Str) : Option Str :=
  match stripCI vidKey s with
  | some (c :: cs) => if isHexChar c then some (c :: cs) else none
  | _ => none

/-- re.search for verificationId=([a-f0-9]+) with IGNORECASE: scan
positions left to right; at the first position where the attempt succeeds
return the maximal hex run after the literal (sheerid_verifier.py line 49). -/
def findVid : Str → Option Str
  | [] => none
  | b :: bs =>
    match vidHit (b :: bs) with
    | some t => some (hexRun t)
    | none => findVid bs

/-- One attempted match of ([a-f0-9]{24}) at the head of the string. -/
def hit24 (s : Str) : Bool := 24 ≤ s.length && (s.take 24).all isHexChar

/-- re.search for ([a-f0-9]{24}) with IGNORECASE: the leftmost position
where 24 consecutive hex characters start (line 53). -/
def find24 : Str → Option Str
  | [] => none
  | b :: bs => if hit24 (b :: bs) then some ((b :: bs).take 24) else find24 bs

/-- SheerIDVerifier.parse_verification_id (lines 47-56): first regex, then
the fallback 24-hex pattern, else None. -/
def parse_verification_id (s : Str) : Option Str :=
  match findVid s with
  | some g => some g
  | none => find24 s

/-- Specification-side predicate: at position i the input matches the
verificationId= literal case-insensitively, followed by a hex character. -/
def vidHexAt (s : Str) (i : Nat) : Bool := (vidHit (s.drop i)).isSome

/-- Specification-side predicate: 24 consecutive hex characters start at
position i. -/
def run24At (s : Str) (i : Nat) : Bool := hit24 (s.drop i)

theorem vidKey_length : vidKey.length = 15 := rfl

theorem stripCI_some_drop : ∀ (p s t : Str), stripCI p s = some t → t = s.drop p.length := by
  intro p
  induction p with
  | nil => intro s t h; simpa [stripCI] using h.symm
  | cons a ps ih =>
    intro s t h
    cases s with
    | nil => simp [stripCI] at h
    | cons b bs =>
      by_cases hc : ciEq a b = true
      · simp only [stripCI, hc, if_pos] at h
        simpa [List.drop_succ_cons] using ih bs t h
      · simp [stripCI, hc] at h

theorem vidHit_some_drop (s t : Str) (h : vidHit s = some t) : t = s.drop 15 := by
  rw [vidHit] at h
  rcases hs : stripCI vidKey s with _ | u
  · rw [hs] at h; exact Option.noConfusion h
  · cases u with
    | nil => rw [hs] at h; exact Option.noConfusion h
    | cons c cs =>
      rw [hs] at h
      dsimp only at h
      by_cases hc : isHexChar c = true
      · rw [if_pos hc] at h
        have := stripCI_some_drop vidKey s (c :: cs) hs
        rw [vidKey_length] at this
        rw [← this]
        exact (Option.some.injEq _ _ ▸ h).symm
      · rw [if_neg hc] at h; exact Option.noConfusion h

theorem hexRun_eq_takeWhile : ∀ s : Str, hexRun s = s.takeWhile isHexChar := by
  intro s
  induction s with
  | nil => rfl
  | cons c cs ih =>
    by_cases h : isHexChar c = true
    · simp [hexRun, List.takeWhile, h, ih]
    · simp [hexRun, List.takeWhile, h]

theorem hexRun_all_hex : ∀ s : Str, (hexRun s).all isHexChar = true := by
  intro s
  induction s with
  | nil => rfl
  | cons c cs ih =>
    by_cases h : isHexChar c = true
    · simp [hexRun, h, ih]
    · simp [hexRun, h]

theorem vidHexAt_zero (s : Str) : vidHexAt s 0 = (vidHit s).isSome := by
  simp [vidHexAt]

theorem vidHexAt_cons (b : Char) (bs : Str) (i : Nat) :
    vidHexAt (b :: bs) (i + 1) = vidHexAt bs i := by
  simp [vidHexAt, List.drop_succ_cons]

theorem run24At_cons (b : Char) (bs : Str) (i : Nat) :
    run24At (b :: bs) (i + 1) = run24At bs i := by
  simp [run24At, List.drop_succ_cons]

theorem findVid_eq_none_iff : ∀ s : Str, findVid s = none ↔ ∀ i, vidHexAt s i = false := by
  intro s
  induction s with
  | nil =>
    constructor
    · intro _ i
      simp [vidHexAt, vidHit, stripCI, vidKey]
    · intro _; rfl
  | cons b bs ih =>
    constructor
    · intro h i
      cases i with
      | zero =>
        rw [vidHexAt_zero]
        rcases hs : vidHit (b :: bs) with _ | t
        · simp
        · exfalso
          rw [findVid, hs] at h
          exact Option.noConfusion h
      | succ j =>
        rw [vidHexAt_cons]
        refine (ih.mp ?_) j
        rw [findVid] at h
        rcases hs : vidHit (b :: bs) with _ | t
        · rw [hs] at h; dsimp only at h; exact h
        · rw [hs] at h; dsimp only at h; exact absurd h (by simp)
    · intro h
      have hz := h 0
      rw [vidHexAt_zero] at hz
      rw [findVid]
      rcases hs : vidHit (b :: bs) with _ | t
      · dsimp only
        exact ih.mpr (fun i => by have := h (i + 1); rwa [vidHexAt_cons] at this)
      · rw [hs] at hz; simp at hz

theorem findVid_leftmost : ∀ (s : Str) (i : Nat), vidHexAt s i = true →
    (∀ j, j < i → vidHexAt s j = false) →
    findVid s = some (hexRun (s.drop (i + 15))) := by
  intro s
  induction s with
  | nil =>
    intro i h _
    exfalso
    simp [vidHexAt, vidHit, stripCI, vidKey] at h
  | cons b bs ih =>
    intro i h hmin
    cases i with
    | zero =>
      rw [vidHexAt_zero] at h
      rcases hs : vidHit (b :: bs) with _ | t
      · rw [hs] at h; simp at h
      · have hdrop := vidHit_some_drop (b :: bs) t hs
        rw [findVid, hs, hdrop]
        try simp
    | succ j =>
      have h0 : vidHexAt (b :: bs) 0 = false := hmin 0 (Nat.succ_pos j)
      rw [vidHexAt_zero] at h0
      have htail : findVid bs = some (hexRun (bs.drop (j + 15))) := by
        apply ih j
        · rw [← vidHexAt_cons]; exact h
        · intro k hk
          rw [← vidHexAt_cons]
          exact hmin (k + 1) (Nat.succ_lt_succ hk)
      have hgoal : (b :: bs).drop (j + 1 + 15) = bs.drop (j + 15) := by
        have he : j + 1 + 15 = (j + 15) + 1 := by omega
        rw [he, List.drop_succ_cons]
      rw [hgoal, findVid]
      rcases hs : vidHit (b :: bs) with _ | t
      · dsimp only; exact htail
      · rw [hs] at h0; simp at h0

theorem find24_eq_none_iff : ∀ s : Str, find24 s = none ↔ ∀ i, run24At s i = false := by
  intro s
  induction s with
  | nil =>
    constructor
    · intro _ i; simp [run24At, hit24]
    · intro _; rfl
  | cons b bs ih =>
    constructor
    · intro h i
      cases i with
      | zero =>
        show hit24 ((b :: bs).drop 0) = false
        rw [List.drop_zero]
        by_cases hc : hit24 (b :: bs) = true
        · rw [find24, if_pos hc] at h; exact absurd h (by simp)
        · simpa using hc
      | succ j =>
        rw [run24At_cons]
        refine (ih.mp ?_) j
        rw [find24] at h
        by_cases hc : hit24 (b :: bs) = true
        · rw [if_pos hc] at h; exact absurd h (by simp)
        · rwa [if_neg hc] at h
    · intro h
      have h0 : hit24 (b :: bs) = false := by
        have := h 0
        rwa [run24At, List.drop_zero] at this
      rw [find24, if_neg (by simp [h0])]
      exact ih.mpr (fun i => by have := h (i + 1); rwa [run24At_cons] at this)

theorem findVid_allhex (s r : Str) (h : findVid s = some r) :
    r.all isHexChar = true ∧ r ≠ [] := by
  induction s with
  | nil => simp [findVid] at h
  | cons b bs ih =>
    rw [findVid] at h
    rcases hs : vidHit (b :: bs) with _ | t
    · rw [hs] at h; exact ih h
    · rw [hs] at h
      have hr : r = hexRun t := by simpa using h.symm
      subst hr
      refine ⟨hexRun_all_hex _, ?_⟩
      -- vidHit guarantees the remainder starts with a hex character
      rw [vidHit] at hs
      rcases hu : stripCI vidKey (b :: bs) with _ | u
      · rw [hu] at hs; exact Option.noConfusion hs
      · cases u with
        | nil => rw [hu] at hs; exact Option.noConfusion hs
        | cons c cs =>
          rw [hu] at hs
          dsimp only at hs
          by_cases hc : isHexChar c = true
          · rw [if_pos hc] at hs
            have ht : t = c :: cs := by simpa using hs.symm
            subst ht
            simp [hexRun, hc]
          · rw [if_neg hc] at hs; exact Option.noConfusion hs

theorem find24_allhex (s r : Str) (h : find24 s = some r) :
    r.all isHexChar = true ∧ r ≠ [] := by
  induction s with
  | nil => simp [find24] at h
  | cons b bs ih =>
    rw [find24] at h
    by_cases hc : hit24 (b :: bs) = true
    · rw [if_pos hc] at h
      have hr : r = (b :: bs).take 24 := by simpa using h.symm
      subst hr
      rw [hit24] at hc
      simp only [Bool.and_eq_true] at hc
      exact ⟨hc.2, by simp⟩
    · rw [if_neg hc] at h; exact ih h

theorem parse_allhex (s r : Str) (h : parse_verification_id s = some r) :
    r.all isHexChar = true ∧ r ≠ [] := by
  rw [parse_verification_id] at h
  rcases hf : findVid s with _ | g
  · rw [hf] at h
    exact find24_allhex s r h
  · rw [hf] at h
    have hr : r = g := by simpa using h.symm
    subst hr
    exact findVid_allhex s r hf

theorem lowerN_hex_ne_v (c : Char) (h : isHexChar c = true) : lowerN c.toNat ≠ 118 := by
  rw [isHexChar] at h
  simp only [Bool.or_eq_true, Bool.and_eq_true, decide_eq_true_eq] at h
  have hr : (48 ≤ c.toNat ∧ c.toNat ≤ 57) ∨ (97 ≤ c.toNat ∧ c.toNat ≤ 102) ∨
      (65 ≤ c.toNat ∧ c.toNat ≤ 70) := by tauto
  rw [lowerN]
  by_cases hb : 65 ≤ c.toNat ∧ c.toNat ≤ 90
  · rw [if_pos hb]; omega
  · rw [if_neg hb]; omega

theorem findVid_of_allhex (s : Str) (h : s.all isHexChar = true) : findVid s = none := by
  rw [findVid_eq_none_iff]
  intro i
  rw [vidHexAt, vidHit]
  rcases hd : s.drop i with _ | ⟨d, ds⟩
  · simp [stripCI, vidKey]
  · have hdhex : isHexChar d = true := by
      have hmem : d ∈ s := List.drop_subset i s (by rw [hd]; exact List.mem_cons_self d ds)
      exact (List.all_eq_true.mp h) d hmem
    have hci : ciEq 'v' d = false := by
      rw [ciEq]
      have hv : lowerN (Char.toNat 'v') = 118 := by decide
      rw [hv]
      have hne := lowerN_hex_ne_v d hdhex
      simp only [beq_eq_false_iff_ne]
      exact fun he => hne he.symm
    have hnone : stripCI vidKey (d :: ds) = none := by
      show stripCI ('v' :: _) (d :: ds) = none
      rw [stripCI, if_neg (by simp [hci])]
    rw [hnone]
    simp

/-- C5 counterexample: the first regex extracts the three-character id
abc from verificationId=abc, but re-parsing abc alone yields None, since
abc is neither a verificationId= parameter nor a 24-hex token. -/
theorem C5_cex :
    parse_verification_id ("verificationId=abc".data) = some ("abc".data) ∧
    parse_verification_id ("abc".data) = none := by
  constructor
  · rfl
  · rfl

theorem find24_length (s g : Str) (h : find24 s = some g) : g.length = 24 := by
  induction s with
  | nil => simp [find24] at h
  | cons b bs ih =>
    rw [find24] at h
    by_cases hc : hit24 (b :: bs) = true
    · rw [if_pos hc] at h
      have hg : g = (b :: bs).take 24 := by simpa using h.symm
      subst hg
      rw [hit24] at hc
      simp only [Bool.and_eq_true, decide_eq_true_eq] at hc
      rw [List.length_take]
      omega
    · rw [if_neg hc] at h; exact ih h

/-- C5 (amended): re-parsing an extracted id returns the same id exactly
when the id has 24 characters.  A shorter extracted id (possible through
the first regex, which captures hex runs of any length) re-parses to None;
a longer one re-parses to its first 24 characters through the fallback
24-hex pattern.  In both off-length cases the re-parse differs from the
id, so the function is idempotent exactly on length-24 extractions. -/
theorem C5_thm (s r : Str) (h : parse_verification_id s = some r) :
    (parse_verification_id r = some r ↔ r.length = 24) ∧
    (r.length < 24 → parse_verification_id r = none) ∧
    (24 < r.length → parse_verification_id r = some (r.take 24)) := by
  obtain ⟨hall, hne⟩ := parse_allhex s r h
  have hparse : parse_verification_id r = find24 r := by
    rw [parse_verification_id, findVid_of_allhex r hall]
  have hge : 24 ≤ r.length → find24 r = some (r.take 24) := by
    intro hlen
    cases hr : r with
    | nil => rw [hr] at hlen; simp at hlen
    | cons b bs =>
      rw [hr] at hall hlen
      have htakeall : ((b :: bs).take 24).all isHexChar = true :=
        List.all_eq_true.mpr
          (fun x hx => List.all_eq_true.mp hall x (List.take_subset 24 _ hx))
      rw [find24, if_pos (by
        rw [hit24]
        simp only [Bool.and_eq_true, decide_eq_true_eq]
        exact ⟨hlen, htakeall⟩)]
  have hlt : r.length < 24 → find24 r = none := by
    intro hlen
    rw [find24_eq_none_iff]
    intro i
    have h24 : ¬ (24 ≤ (r.drop i).length) := by
      rw [List.length_drop]; omega
    rw [run24At, hit24, decide_eq_false h24, Bool.false_and]
  refine ⟨⟨?_, ?_⟩, ?_, ?_⟩
  · intro hp
    rw [hparse] at hp
    exact find24_length r r hp
  · intro hlen
    rw [hparse]
    have hg := hge (by omega)
    rwa [List.take_of_length_le (by omega)] at hg
  · intro hlen
    rw [hparse]
    exact hlt hlen
  · intro hlen
    rw [hparse]
    exact hge (by omega)

/-- C5 witness: a concrete 24-hex id round-trips, and a 28-hex extracted
id re-parses to its 24-character prefix. -/
theorem C5_wit :
    parse_verification_id ("0123456789abcdef01234567".data) =
      some ("0123456789abcdef01234567".data) ∧
    parse_verification_id ("0123456789abcdef0123456789ab".data) =
      some ("0123456789abcdef01234567".data) := by
  constructor
  · exact (C5_thm ("verificationId=0123456789abcdef01234567".data)
      ("0123456789abcdef01234567".data) (by decide)).1.mpr (by decide)
  · have h := (C5_thm ("verificationId=0123456789abcdef0123456789ab".data)
      ("0123456789abcdef0123456789ab".data) (by decide)).2.2 (by decide)
    rwa [show ("0123456789abcdef0123456789ab".data).take 24 =
      ("0123456789abcdef01234567".data) from by decide] at h

/-- C10: parse_verification_id matches case-insensitively; whenever some
position carries the (case-insensitive) verificationId= literal followed
by a hex character, the result is the maximal hex run after the leftmost
such position, verbatim and of whatever length; and the result is None
exactly when no position carries the parameter-plus-hex and no position
starts 24 consecutive hex characters.  Any returned id consists solely of
hex characters and is nonempty. -/
theorem C10_thm (s : Str) :
    (parse_verification_id s = none ↔
      (∀ i, vidHexAt s i = false) ∧ (∀ i, run24At s i = false))
    ∧ (∀ i, vidHexAt s i = true → (∀ j, j < i → vidHexAt s j = false) →
        parse_verification_id s = some ((s.drop (i + 15)).takeWhile isHexChar))
    ∧ (∀ r, parse_verification_id s = some r → r.all isHexChar = true ∧ r ≠ []) := by
  refine ⟨?_, ?_, parse_allhex s⟩
  · constructor
    · intro h
      rw [parse_verification_id] at h
      rcases hf : findVid s with _ | g
      · rw [hf] at h
        exact ⟨(findVid_eq_none_iff s).mp hf, (find24_eq_none_iff s).mp h⟩
      · rw [hf] at h; exact Option.noConfusion h
    · intro ⟨h1, h2⟩
      rw [parse_verification_id, (findVid_eq_none_iff s).mpr h1]
      exact (find24_eq_none_iff s).mpr h2
  · intro i hi hmin
    rw [parse_verification_id, findVid_leftmost s i hi hmin, hexRun_eq_takeWhile]

/-- C10 witness: mixed-case literal and mixed-case hex run, length four,
returned verbatim. -/
theorem C10_wit :
    parse_verification_id ("uVERIFICATIONid=0Ff9z".data) = some ("0Ff9".data) := by
  have h := (C10_thm ("uVERIFICATIONid=0Ff9z".data)).2.1 1 (by decide)
    (fun j hj => by
      have hj0 : j = 0 := by omega
      subst hj0; decide)
  exact h.trans (by decide)

/-!
Session state (SheerIDVerifier.__init__) and the request executor.
-/

/-- Session attributes created by SheerIDVerifier.__init__ (lines 32-36):
the verification id and the 32-hex device fingerprint.  The constructor
also creates an HTTP client object, which carries no session data.  No
other attribute is ever assigned on self anywhere in the class. -/
structure SheerIDSession where
  verification_id : Str
  device_fingerprint : Str
deriving DecidableEq

/-- Effect of one _sheerid_request call (lines 58-69) on the session
attributes: the method only reads self.http_client and assigns to no
attribute of self, so the session state is unchanged. -/
def sheeridRequestSessionEffect (s : SheerIDSession) : SheerIDSession := s

/-- C4 counterexample: the session holds no request counter at all.  No
natural-number observation of the session state is strictly increased by a
request executor call, since the call leaves the session unchanged
(refuted at the concrete session with empty id and fingerprint). -/
theorem C4_cex :
    ¬ ∃ counter : SheerIDSession → Nat,
      ∀ s, counter s < counter (sheeridRequestSessionEffect s) := by
  rintro ⟨c, hc⟩
  exact absurd (hc ⟨[], []⟩) (by simp [sheeridRequestSessionEffect])

/-- C4 (amended): the session state consists only of the verification id
and the device fingerprint — there is no request counter — and every call
through the request executor leaves the session state unchanged. -/
theorem C4_thm (s : SheerIDSession) : sheeridRequestSessionEffect s = s := rfl

/-!
Data model of decoded responses, the oracle environment, and the
execution monad for SheerIDVerifier.verify.
-/

/-- Upload-target entry of the documents list in a docUpload response.
The code reads the uploadUrl key (lines 406-407); the field is optional so
that a missing key models a Python KeyError. -/
structure DocEntry where
  uploadUrl : Option Str
deriving DecidableEq

/-- The JSON-dict fields of a decoded SheerID response that the verifier
reads.  An absent key is none; dict.get with a default is Option.getD. -/
structure RespData where
  currentStep : Option Str := none
  errorIds : Option (List Str) := none
  segment : Option Str := none
  systemErrorMessage : Option Str := none
  submissionUrl : Option Str := none
  availableStatuses : Option (List Str) := none
  documents : Option (List DocEntry) := none
  redirectUrl : Option Str := none
  canResendEmailLoop : Option Bool := none
deriving DecidableEq

/-- A decoded transport body: response.json() when it parses, otherwise
the raw response text (lines 62-65). -/
inductive JsonBody
  | dict (d : RespData)
  | text (t : Str)
deriving DecidableEq

/-- The empty dict, assigned when a status fetch raises (lines 144-145). -/
def emptyResp : RespData := {}

/-- A SCHOOLS configuration entry (config.py is not under src): id,
extended id and display name, as read by the step-2 body construction. -/
structure SchoolRec where
  id : Str
  idExtended : Str
  name : Str
deriving DecidableEq

/-- The endpoint a transport request is issued against, by call site. -/
inductive CallKind
  | submitPersonalInfo
  | getVerStatus
  | militaryStatus
  | militaryPersonalInfo
  | ssoBypass
  | emailLoopResend
  | docUpload
  | completeDocUpload
deriving DecidableEq

/-- One observable transport interaction: a JSON request with its
sequential request index, or a binary S3 put with its upload index. -/
inductive TraceEv
  | call (k : CallKind) (ix : Nat)
  | s3put (ix : Nat)
deriving DecidableEq

/-- Oracles for everything outside the verifier: the transport answer for
the n-th JSON request (an exception message, or a decoded body with HTTP
status), the outcome of the n-th S3 put, the random stream, the external
generators (name_generator.py is not under src), the document renderers,
the school configuration (config.py is not under src), an abstract str()
rendering of dict bodies, and the current year.  Indexing each oracle by
call position loses no generality, because the call sequence is a function
of the answers. -/
structure Env where
  trans : Nat → Except Str (JsonBody × Nat)
  upload : Nat → Bool
  rand : Nat → Nat
  genPair : Nat → Str × Str
  genEmail : Nat → Str
  genBirthDate : Str
  genPdf : Except Str Nat
  genPng : Except Str Nat
  schools : Str → Option SchoolRec
  defaultSchoolId : Str
  reprDict : RespData → Str
  todayYear : Nat

/-- Oracle positions consumed so far in one run. -/
structure VSt where
  reqIx : Nat := 0
  randIx : Nat := 0
  genIx : Nat := 0
  emailIx : Nat := 0
  upIx : Nat := 0
deriving DecidableEq

/-- The execution monad of the model: state (oracle positions), an
exception channel carrying str(e) of a Python exception, and a trace of
transport interactions. -/
def M (α : Type) : Type := VSt → Except Str α × VSt × List TraceEv

def mPure {α : Type} (a : α) : M α := fun st => (Except.ok a, st, [])

def mBind {α β : Type} (x : M α) (f : α → M β) : M β := fun st =>
  match x st with
  | (Except.ok a, st1, tr1) =>
    match f a st1 with
    | (r, st2, tr2) => (r, st2, tr1 ++ tr2)
  | (Except.error e, st1, tr1) => (Except.error e, st1, tr1)

instance : Monad M where
  pure := mPure
  bind := mBind

/-- Python raise, carrying the exception message. -/
def throwM {α : Type} (e : Str) : M α := fun st => (Except.error e, st, [])

/-- Python try/except around an action: the exception becomes a value. -/
def pyTry {α : Type} (x : M α) : M (Except Str α) := fun st =>
  (Except.ok (x st).1, (x st).2.1, (x st).2.2)

/-- One call through _sheerid_request against endpoint k: consumes the
next transport answer, records the call, advances the request position; a
transport exception propagates to the caller (line 69). -/
def doReq (env : Env) (k : CallKind) : M (JsonBody × Nat) := fun st =>
  (env.trans st.reqIx, { st with reqIx := st.reqIx + 1 }, [TraceEv.call k st.reqIx])

/-- One _upload_to_s3 call (lines 71-78): catches its own exceptions and
returns a Bool. -/
def doUpload (env : Env) : M Bool := fun st =>
  (Except.ok (env.upload st.upIx), { st with upIx := st.upIx + 1 }, [TraceEv.s3put st.upIx])

/-- One draw from the random stream (random.choice or random.randint). -/
def randM (env : Env) : M Nat := fun st =>
  (Except.ok (env.rand st.randIx), { st with randIx := st.randIx + 1 }, [])

/-- One NameGenerator.generate() call. -/
def genPairM (env : Env) : M (Str × Str) := fun st =>
  (Except.ok (env.genPair st.genIx), { st with genIx := st.genIx + 1 }, [])

/-- One generate_email() call. -/
def genEmailM (env : Env) : M Str := fun st =>
  (Except.ok (env.genEmail st.emailIx), { st with emailIx := st.emailIx + 1 }, [])

/-- Lift an external Except result (a document renderer) into the monad. -/
def liftE {α : Type} (x : Except Str α) : M α := fun st => (x, st, [])

/-- Python truthiness of an optional string: None and the empty string
are falsy. -/
def pyTruthy : Option Str → Bool
  | none => false
  | some s => !s.isEmpty

/-- Python (x or y) for an optional string against a default. -/
def pyOrStr (o : Option Str) (dflt : Str) : Str :=
  match o with
  | some s => if s.isEmpty then dflt else s
  | none => dflt

/-- Python (x or y) for an optional list against a default. -/
def pyOrList {α : Type} (o : Option (List α)) (dflt : List α) : List α :=
  match o with
  | some (a :: rest) => a :: rest
  | _ => dflt

/-- Python str() of a decoded body: the text itself, or the abstract dict
rendering supplied by the environment. -/
def pyStr (env : Env) : JsonBody → Str
  | JsonBody.text t => t
  | JsonBody.dict d => env.reprDict d

/-- Stands for the message of a Python AttributeError raised by calling
.get on a response that decoded as text rather than as a dict. -/
def pyAttrError : Str := "AttributeError".data

/-- Stands for the message of a Python KeyError from a missing key. -/
def pyKeyError : Str := "KeyError".data

/-- Access the dict fields of a decoded body, as Python attribute access
does: on a text body, .get raises AttributeError. -/
def asDictM (b : JsonBody) : M RespData :=
  match b with
  | JsonBody.dict d => mPure d
  | JsonBody.text _ => throwM pyAttrError

/-!
Path selector: lines 147-163 of SheerIDVerifier.verify.
-/

def invalidStepKey : Str := "invalidstep".data
def localhostKey : Str := "localhost".data
def cannotPerformKey : Str := "cannot perform step".data
def militaryKey : Str := "military".data
def collectMilitaryKey : Str := "collectmilitary".data

/-- Lines 147-163: whether to fall back to the military flow, computed
from the failed step-2 response body and the (dict) verification status
snapshot.  system_msg is the lowered systemErrorMessage for a dict body,
or the lowered text rendering otherwise (lines 147-151); is_invalid_step
requires a dict body with a truthy errorIds list whose comma-joined,
lowered contents contain the substring invalidstep (lines 153-155); the
remaining disjuncts are the segment checks and the collectmilitary step
check (lines 157-163). -/
def shouldTryMilitary (d2 : JsonBody) (vs : RespData) : Bool :=
  let sysMsg : Str :=
    match d2 with
    | JsonBody.dict d => toLowerStr ((d.systemErrorMessage).getD [])
    | JsonBody.text t => toLowerStr t
  let isInvalidStep : Bool :=
    match d2 with
    | JsonBody.dict d =>
      match d.errorIds with
      | some (e :: rest) =>
        substrOf invalidStepKey (toLowerStr (joinWith (",".data) (e :: rest)))
      | _ => false
    | JsonBody.text _ => false
  (substrOf localhostKey sysMsg || substrOf cannotPerformKey sysMsg || isInvalidStep)
  || (match d2 with
      | JsonBody.dict d => d.segment == some militaryKey
      | JsonBody.text _ => false)
  || (vs.segment == some militaryKey)
  || strLeads collectMilitaryKey (toLowerStr ((vs.currentStep).getD []))

/-- C1 counterexample: an errorIds list containing exactly INVALID_STEP
(which does contain invalid step case-insensitively in the sense of the
claim) lowercases to invalid_step, which does not contain the contiguous
substring invalidstep checked at line 155 — so with every other field
empty the decision is not switch-to-military. -/
theorem C1_cex :
    ("INVALID_STEP".data ∈ (["INVALID_STEP".data] : List Str)) ∧
    shouldTryMilitary
      (JsonBody.dict { errorIds := some ["INVALID_STEP".data] }) emptyResp = false := by
  refine ⟨List.mem_cons_self _ _, ?_⟩
  decide

/-- C1 (amended): whenever the comma-joined, lowercased errorIds of the
failed dict response contain the contiguous substring invalidstep (for
example invalidStep or INVALIDSTEP, but not INVALID_STEP), the decision is
switch-to-military, regardless of every other response field and of the
remote session snapshot. -/
theorem C1_thm (d : RespData) (vs : RespData)
    (h : substrOf invalidStepKey
        (toLowerStr (joinWith (",".data) ((d.errorIds).getD []))) = true) :
    shouldTryMilitary (JsonBody.dict d) vs = true := by
  rcases hid : d.errorIds with _ | l
  · rw [hid] at h
    exact absurd h (by decide)
  · cases l with
    | nil =>
      rw [hid] at h
      exact absurd h (by decide)
    | cons e rest =>
      rw [hid] at h
      simp only [shouldTryMilitary, hid, Option.getD_some] at h ⊢
      simp [h]

/-- C1 witness: a camel-case invalidStep error id forces the military
decision even with a snapshot pointing at an unrelated step. -/
theorem C1_wit :
    shouldTryMilitary (JsonBody.dict { errorIds := some ["invalidStep".data] })
      { currentStep := some "collectTeacherPersonalInfo".data } = true :=
  C1_thm _ _ (by decide)

/-!
Military fallback: random dates, organizations, payloads (lines 179-313).
-/

/-- Python random.randint(lo, hi), inclusive on both ends, driven by one
draw r from the random stream (defined for lo ≤ hi). -/
def pyRandint (r lo hi : Nat) : Nat := lo + r % (hi + 1 - lo)

/-- Line 243: the regenerated military birth year, randint(1960, 1985). -/
def milBirthYear (r : Nat) : Nat := pyRandint r 1960 1985

/-- A calendar date as assembled into the f-string Y-MM-DD. -/
structure DateYMD where
  y : Nat
  m : Nat
  d : Nat
deriving DecidableEq

/-- A military branch organization (lines 216-223). -/
structure MilOrg where
  id : Nat
  name : Str
deriving DecidableEq

def militaryOrgs : List MilOrg :=
  [⟨4070, "Army".data⟩, ⟨4073, "Air Force".data⟩, ⟨4072, "Navy".data⟩,
   ⟨4071, "Marine Corps".data⟩, ⟨4074, "Coast Guard".data⟩,
   ⟨4544268, "Space Force".data⟩]

/-- The military personal-info payload fields the model tracks (lines
257-274); the omitted fields are constant strings. -/
structure MilPersonalBody where
  firstName : Str
  lastName : Str
  birthDate : DateYMD
  dischargeDate : DateYMD
  email : Str
  org : MilOrg
deriving DecidableEq

/-- ASCII alphabetic test (Python str.isalpha on ASCII data). -/
def asciiIsAlpha (c : Char) : Bool :=
  (65 ≤ c.toNat && c.toNat ≤ 90) || (97 ≤ c.toNat && c.toNat ≤ 122)

def toUpperChar (c : Char) : Char :=
  Char.ofNat (if 97 ≤ c.toNat ∧ c.toNat ≤ 122 then c.toNat - 32 else c.toNat)

/-- Python str.title on alpha-and-dash data: uppercase a letter that does
not follow a letter, lowercase one that does. -/
def pyTitleGo : Bool → Str → Str
  | _, [] => []
  | prev, c :: cs =>
    (if asciiIsAlpha c then (if prev then toLowerChar c else toUpperChar c) else c)
      :: pyTitleGo (asciiIsAlpha c) cs

/-- Lines 231-232: keep only letters and dashes, then title-case.  After
the filter no whitespace remains, so the strip in the source is a no-op. -/
def sanitize_name (n : Str) : Str :=
  pyTitleGo false (n.filter (fun c => asciiIsAlpha c || c == '-'))

/-- Lines 246-251 as executed: min is birth year + 18, max is the last
calendar year; the degenerate branch (min at or above max) takes max and
draws nothing from the random stream, otherwise one randint draw. -/
def milDischargeM (env : Env) (b : Nat) : M Nat :=
  if env.todayYear - 1 ≤ b + 18 then mPure (env.todayYear - 1)
  else mBind (randM env) (fun r => mPure (pyRandint r (b + 18) (env.todayYear - 1)))

/-- One military personal-info payload (lines 228-274), from the current
names, the random draws and a fresh email. -/
def mkMilPersonalBody (fn ln : Str) (org : MilOrg) (b bm bd dy dm dd : Nat)
    (em : Str) : MilPersonalBody :=
  { firstName := fn, lastName := ln,
    birthDate := ⟨b, 1 + bm % 12, 1 + bd % 28⟩,
    dischargeDate := ⟨dy, 1 + dm % 12, 1 + dd % 28⟩,
    email := em, org := org }

/-- Default military statuses (line 177). -/
def defaultStatuses : List Str :=
  ["ACTIVE_DUTY".data, "VETERAN".data, "RESERVIST".data]

def errorKey : Str := "error".data

/-- One .get of currentStep on a decoded body: a text body raises
AttributeError. -/
def jsonCurrentStepM (b : JsonBody) : M (Option Str) :=
  match b with
  | JsonBody.dict d => mPure d.currentStep
  | JsonBody.text _ => throwM pyAttrError

/-- Line 209: the lowered first truthy currentStep among the refreshed
snapshot and the status response; a .get on a text body raises
AttributeError, in the short-circuit order of the original expression
(the status response is only inspected when the snapshot value is not a
truthy string). -/
def milCurrentM (vb sd : JsonBody) : M Str := do
  let v ← jsonCurrentStepM vb
  match v with
  | some (c :: cs) => mPure (toLowerStr (c :: cs))
  | _ => do
    let w ← jsonCurrentStepM sd
    match w with
    | some (c :: cs) => mPure (toLowerStr (c :: cs))
    | _ => mPure []

def collectInactiveKey : Str := "collectinactivemilitary".data
def collectActiveKey : Str := "collectactivemilitary".data

/-- Line 213: the current step denotes a military personal-info step. -/
def milPersonalNeeded (cur : Str) : Bool :=
  strLeads collectInactiveKey cur || strLeads collectActiveKey cur ||
  substrOf collectInactiveKey cur || substrOf collectActiveKey cur

/-- Lines 234-235: regenerate the first name when falsy or shorter than
two characters (NameGenerator.generate, taking its first_name). -/
def regenFirstM (env : Env) (fn : Str) : M Str :=
  if fn.length < 2 then mBind (genPairM env) (fun p => mPure p.1) else mPure fn

/-- Lines 236-237: regenerate the last name when falsy or shorter than
two characters. -/
def regenLastM (env : Env) (ln : Str) : M Str :=
  if ln.length < 2 then mBind (genPairM env) (fun p => mPure p.2) else mPure ln

/-- Lines 226-299: the bounded military personal-info retry loop
(personal_attempts = 3); returns the successful response, or after
exhausting the tries the mutated names and last error for the enclosing
status loop.  Each try draws the organization, regenerates too-short
names, sanitizes them, draws birth and discharge dates, generates a fresh
email, and posts; a 200 response whose dict body does not carry
currentStep error is the success. -/
def milPersonalLoop (env : Env) : Nat → Str → Str → Str →
    M (Sum (JsonBody × Nat) (Str × Str × Str))
  | 0, fn, ln, le => mPure (Sum.inr (fn, ln, le))
  | fuel + 1, fn, ln, le => do
    let rorg ← randM env
    let org := militaryOrgs.getD (rorg % militaryOrgs.length) ⟨0, []⟩
    let fn1 ← regenFirstM env fn
    let ln1 ← regenLastM env ln
    let fn2 := sanitize_name fn1
    let ln2 := sanitize_name ln1
    let rby ← randM env
    let b := milBirthYear rby
    let rbm ← randM env
    let rbd ← randM env
    let dy ← milDischargeM env b
    let rdm ← randM env
    let rdd ← randM env
    let em ← genEmailM env
    let _body := mkMilPersonalBody fn2 ln2 org b rbm rbd dy rdm rdd em
    let res ← pyTry (doReq env CallKind.militaryPersonalInfo)
    match res with
    | Except.error e => milPersonalLoop env fuel fn2 ln2 e
    | Except.ok (pd, ps) =>
      let stepError : Bool := match pd with
        | JsonBody.dict d => d.currentStep == some errorKey
        | JsonBody.text _ => false
      if ps == 200 && !stepError then mPure (Sum.inl (pd, ps))
      else milPersonalLoop env fuel fn2 ln2 (pyStr env pd)

/-- Lines 179-313: the bounded military status loop (max_attempts = 4).
Each attempt draws a status choice, posts to collectMilitaryStatus,
refetches the snapshot on 200 and either returns the status response as
canonical or runs the personal-info sub-loop; exhausting the attempts
raises Step 2 Failed after military attempts. -/
def milStatusLoop (env : Env) : Nat → List Str → Str → Str → Str → M (JsonBody × Nat)
  | 0, _, _, _, le =>
    throwM ("Step 2 Failed after military attempts (last: ".data ++ le ++ ")".data)
  | fuel + 1, statuses, fn, ln, le => do
    let rch ← randM env
    let _choice := statuses.getD (rch % statuses.length) []
    let res ← pyTry (doReq env CallKind.militaryStatus)
    match res with
    | Except.error e => milStatusLoop env fuel statuses fn ln e
    | Except.ok (sd, sc) =>
      if sc != 200 then milStatusLoop env fuel statuses fn ln (pyStr env sd)
      else do
        let vr ← pyTry (doReq env CallKind.getVerStatus)
        let vb : JsonBody := match vr with
          | Except.ok (x, _) => x
          | Except.error _ => JsonBody.dict emptyResp
        let cur ← milCurrentM vb sd
        if milPersonalNeeded cur then do
          let pres ← milPersonalLoop env 3 fn ln le
          match pres with
          | Sum.inl r => mPure r
          | Sum.inr (fn2, ln2, le2) => milStatusLoop env fuel statuses fn2 ln2 le2
        else mPure (sd, sc)

/-!
The verify orchestration (lines 80-424).
-/

def refererUrlKey : Str := "refererUrl".data

/-- The keys of the metadata dict built for the step-2 body (lines
125-130); the body always carries a refererUrl entry. -/
def step2MetadataKeys : List Str :=
  ["marketConsentValue".data, refererUrlKey, "verificationId".data,
   "submissionOptIn".data]

/-- Lines 166-171: the one retry of the teacher endpoint without the
referrer, performed exactly when the original metadata carried a
refererUrl key; otherwise the original response stands. -/
def retryStepM (env : Env) (d2 : JsonBody) (s2 : Nat) : M (JsonBody × Nat) :=
  if refererUrlKey ∈ step2MetadataKeys then doReq env CallKind.submitPersonalInfo
  else mPure (d2, s2)

/-- Lines 174-313: run the military status loop exactly when the status
after the retry is still not 200 and the military decision holds;
otherwise the post-retry response stands. -/
def milFallbackM (env : Env) (stm : Bool) (statuses : List Str) (fn ln : Str)
    (d2b : JsonBody) (s2b : Nat) : M (JsonBody × Nat) :=
  if s2b != 200 && stm then milStatusLoop env 4 statuses fn ln ("None".data)
  else mPure (d2b, s2b)

/-- Line 316: after the retry and any military attempts, re-raise when
the step-2 status is still not 200. -/
def step2FinalCheckM (env : Env) (d2c : JsonBody) (s2c : Nat) : M (JsonBody × Nat) :=
  if s2c != 200 then
    throwM ("Step 2 Failed (Status ".data ++ (Nat.repr s2c).data ++ "): ".data
      ++ pyStr env d2c)
  else mPure (d2c, s2c)

/-- Lines 139-317: the handler for a non-200 step-2 response: fetch the
snapshot (an exception gives an empty dict; a text snapshot raises at the
first .get), compute the military decision, retry the teacher endpoint
once without the referrer whenever the original metadata carried one (it
always does), run the military status loop when the retry still failed
and the decision says military, and finally re-raise when the resulting
status is still not 200. -/
def step2Fallback (env : Env) (fn ln : Str) (d2 : JsonBody) (s2 : Nat) :
    M (JsonBody × Nat) := do
  let vr ← pyTry (doReq env CallKind.getVerStatus)
  let verB : JsonBody := match vr with
    | Except.ok (x, _) => x
    | Except.error _ => JsonBody.dict emptyResp
  let vs ← asDictM verB
  let stm := shouldTryMilitary d2 vs
  let (d2b, s2b) ← retryStepM env d2 s2
  let (d2c, s2c) ← milFallbackM env stm (pyOrList vs.availableStatuses defaultStatuses)
    fn ln d2b s2b
  step2FinalCheckM env d2c s2c

def ssoKey : Str := "sso".data
def collectTeacherKey : Str := "collectTeacherPersonalInfo".data

/-- Lines 326-330: when the canonical step-2 current step is sso or
collectTeacherPersonalInfo, issue the DELETE against the sso endpoint.
The HTTP status of the response is discarded; only a transport exception
or a text body (whose .get raises) stops the run.  Returns the updated
current step. -/
def ssoPhase (env : Env) (cs : Str) : M Str :=
  if cs == ssoKey || cs == collectTeacherKey then do
    let (d3, _) ← doReq env CallKind.ssoBypass
    let d3d ← asDictM d3
    mPure ((d3d.currentStep).getD cs)
  else mPure cs

/-- The lowered current step of a snapshot body (lines 341, 350, 377);
.get on a text body raises AttributeError. -/
def readCurrentM (b : JsonBody) : M Str := do
  let d ← asDictM b
  mPure (toLowerStr ((d.currentStep).getD []))

def docUploadKey : Str := "docupload".data
def docUnderUploadKey : Str := "doc_upload".data

/-- Lines 343-351: up to three snapshot refetches while the current step
does not yet denote document upload. -/
def pollLoop (env : Env) : Nat → JsonBody × Str → M (JsonBody × Str)
  | 0, vc => mPure vc
  | fuel + 1, (vb, cur) =>
    if substrOf docUploadKey cur || substrOf docUnderUploadKey cur then
      mPure (vb, cur)
    else do
      let vr ← pyTry (doReq env CallKind.getVerStatus)
      let vb2 : JsonBody := match vr with
        | Except.ok (x, _) => x
        | Except.error _ => JsonBody.dict emptyResp
      let cur2 ← readCurrentM vb2
      pollLoop env fuel (vb2, cur2)

/-- Lines 369-385: after resending, poll (bounded by 30) until the step
denotes document upload; exhausting the bound raises the timeout. -/
def emailPollLoop (env : Env) : Nat → M Unit
  | 0 => throwM ("Timeout waiting for docUpload after resending email. Please check email inbox or try again later.".data)
  | fuel + 1 => do
    let vr ← pyTry (doReq env CallKind.getVerStatus)
    let vb : JsonBody := match vr with
      | Except.ok (x, _) => x
      | Except.error _ => JsonBody.dict emptyResp
    let cur ← readCurrentM vb
    if substrOf docUploadKey cur || substrOf docUnderUploadKey cur then mPure ()
    else emailPollLoop env fuel

def emailLoopKey : Str := "emailloop".data

/-- Lines 354-385: the email-loop sub-flow: fail when resend was not
requested or the server disallows it or the submission URL is missing;
otherwise POST the resend (wrapping a transport exception) and poll. -/
def emailPhase (env : Env) (resendEmail : Bool) (vb : JsonBody) (cur : Str) : M Unit :=
  if substrOf emailLoopKey cur then
    if !resendEmail then
      throwM ("Verification requires email confirmation (emailLoop). Use --resend-email to resend and wait or confirm manually via inbox.".data)
    else do
      let vd ← asDictM vb
      if !((vd.canResendEmailLoop).getD false) then
        throwM ("Verification is in emailLoop but server disallows resending the email. Please confirm the email manually.".data)
      else
        if !pyTruthy vd.submissionUrl then
          throwM ("Email loop submission URL is missing; cannot resend.".data)
        else do
          let r ← pyTry (doReq env CallKind.emailLoopResend)
          match r with
          | Except.error e => throwM ("Failed to POST resend email: ".data ++ e)
          | Except.ok _ => emailPollLoop env 30
  else mPure ()

def uploadUrlsFailMsg : Str := "Failed to retrieve Upload URLs".data
def pdfFailMsg : Str := "PDF Upload Failed".data
def pngFailMsg : Str := "PNG Upload Failed".data

/-- Success payload of the run (line 420): the redirect url and the final
status snapshot from the completion response. -/
structure SuccessData where
  redirectUrl : Option Str
  status : RespData
deriving DecidableEq

/-- Lines 387-420: request the two upload targets, require at least two
documents entries (on fewer: fetch a best-effort diagnostic snapshot and
raise), read both upload urls (a missing key raises), transfer the PDF
then the PNG (each failure fatal and distinct), then post the completion
step and produce the success data. -/
def keyGetM (o : Option Str) : M Str :=
  match o with
  | some u => mPure u
  | none => throwM pyKeyError

def docPhase (env : Env) : M SuccessData := do
  let (d4, _) ← doReq env CallKind.docUpload
  let dd4 ← asDictM d4
  match pyOrList dd4.documents [] with
  | e0 :: e1 :: _ => do
    let _pdfUrl ← keyGetM e0.uploadUrl
    let _pngUrl ← keyGetM e1.uploadUrl
    let ok1 ← doUpload env
    if !ok1 then throwM pdfFailMsg
    else do
      let ok2 ← doUpload env
      if !ok2 then throwM pngFailMsg
      else do
        let (d6, _) ← doReq env CallKind.completeDocUpload
        let dd6 ← asDictM d6
        mPure { redirectUrl := dd6.redirectUrl, status := dd6 }
  | _ => do
    let _ ← pyTry (doReq env CallKind.getVerStatus)
    throwM uploadUrlsFailMsg

/-- Applicant inputs of verify (line 80). -/
structure VerifyInput where
  first_name : Option Str := none
  last_name : Option Str := none
  email : Option Str := none
  birth_date : Option Str := none
  school_id : Option Str := none
  resend_email : Bool := false

/-- Data established by lines 82-108 before any transport call. -/
structure SetupData where
  firstName : Str
  lastName : Str
  email : Str
  birthDate : Str
  pdfSize : Nat
  pngSize : Nat
deriving DecidableEq

/-- Lines 84-87: one generate call sets both names when either is falsy. -/
def resolveNamesM (env : Env) (inp : VerifyInput) : M (Str × Str) :=
  if !pyTruthy inp.first_name || !pyTruthy inp.last_name then genPairM env
  else mPure ((inp.first_name).getD [], (inp.last_name).getD [])

/-- Lines 89-90: SCHOOLS lookup; a missing key raises KeyError. -/
def schoolLookupM (env : Env) (sid : Str) : M SchoolRec :=
  match env.schools sid with
  | some sc => mPure sc
  | none => throwM pyKeyError

/-- Lines 92-93: generate the email when the input one is falsy. -/
def resolveEmailM (env : Env) (inp : VerifyInput) : M Str :=
  if !pyTruthy inp.email then genEmailM env else mPure ((inp.email).getD [])

/-- Lines 82-108: synthesize missing applicant data (one generate call
sets both names when either is falsy), resolve the school (a missing
configuration key raises KeyError), synthesize email and birth date when
absent, render the two artifacts (a renderer failure raises). -/
def setupPhase (env : Env) (inp : VerifyInput) : M SetupData := do
  let (fn, ln) ← resolveNamesM env inp
  let sid := pyOrStr inp.school_id env.defaultSchoolId
  let _school ← schoolLookupM env sid
  let em ← resolveEmailM env inp
  let bd := if !pyTruthy inp.birth_date then env.genBirthDate else (inp.birth_date).getD []
  let psz ← liftE env.genPdf
  let gsz ← liftE env.genPng
  mPure { firstName := fn, lastName := ln, email := em, birthDate := bd,
          pdfSize := psz, pngSize := gsz }

def initialKey : Str := "initial".data

/-- Line 139: the failure handler runs exactly when step 2 returned a
non-200 status. -/
def step2ResolveM (env : Env) (fn ln : Str) (d20 : JsonBody) (s20 : Nat) :
    M (JsonBody × Nat) :=
  if s20 != 200 then step2Fallback env fn ln d20 s20 else mPure (d20, s20)

/-- Lines 82-385: everything before the document-upload phase: setup, the
step-2 submission with its failure handler, the step-2 error check, the
sso bypass, the snapshot polling and the email loop. -/
def preDocPart (env : Env) (inp : VerifyInput) : M Unit := do
  let su ← setupPhase env inp
  let (d20, s20) ← doReq env CallKind.submitPersonalInfo
  let (d2, _) ← step2ResolveM env su.firstName su.lastName d20 s20
  let dd2 ← asDictM d2
  if dd2.currentStep == some errorKey then
    throwM ("Step 2 Error: ".data ++
      joinWith (", ".data) ((dd2.errorIds).getD ["Unknown error".data]))
  else do
    let cs := (dd2.currentStep).getD initialKey
    let _ ← ssoPhase env cs
    let vr ← pyTry (doReq env CallKind.getVerStatus)
    let vb : JsonBody := match vr with
      | Except.ok (x, _) => x
      | Except.error _ => JsonBody.dict emptyResp
    let cur0 ← readCurrentM vb
    let (vb2, cur) ← pollLoop env 3 (vb, cur0)
    emailPhase env inp.resend_email vb2 cur

/-- SheerIDVerifier.verify, lines 80-420: the pre-document phases followed
by the document phase. -/
def verifyBody (env : Env) (inp : VerifyInput) : M SuccessData := do
  preDocPart env inp
  docPhase env

/-- The dict returned by verify: success shape (line 420) and failure
shape (line 424).  Keys absent from the failure dict are none. -/
structure WorkflowOutcome where
  success : Bool
  pending : Option Bool
  message : Str
  verification_id : Str
  redirect_url : Option (Option Str)
  status : Option RespData
deriving DecidableEq

def pendingReviewMsg : Str := "Documents submitted, pending review".data

/-- SheerIDVerifier.verify (lines 80-424): the whole body runs under one
try/except Exception; any exception becomes the failure outcome carrying
str(e) (line 424); success produces the fixed success outcome (line 420).
Returns the outcome together with the final oracle positions and the
transport trace. -/
def verify (vid : Str) (env : Env) (inp : VerifyInput) :
    WorkflowOutcome × VSt × List TraceEv :=
  match verifyBody env inp {} with
  | (Except.ok d, st, tr) =>
    ({ success := true, pending := some true, message := pendingReviewMsg,
       verification_id := vid, redirect_url := some d.redirectUrl,
       status := some d.status }, st, tr)
  | (Except.error e, st, tr) =>
    ({ success := false, pending := none, message := e,
       verification_id := vid, redirect_url := none, status := none }, st, tr)

theorem bind_def {α β : Type} (x : M α) (f : α → M β) :
    (x >>= f) = mBind x f := rfl

theorem pure_def {α : Type} (a : α) : (pure a : M α) = mPure a := rfl

attribute [simp] bind_def pure_def

/-- A benign concrete environment used to instantiate theorems: every
transport answer is an empty dict with status 200, uploads succeed, all
generators return fixed values, the school lookup succeeds. -/
def envBase : Env where
  trans := fun _ => Except.ok (JsonBody.dict emptyResp, 200)
  upload := fun _ => true
  rand := fun _ => 0
  genPair := fun _ => ("Ann".data, "Lee".data)
  genEmail := fun _ => "a@b.c".data
  genBirthDate := "1990-01-01".data
  genPdf := Except.ok 1
  genPng := Except.ok 1
  schools := fun _ => some ⟨"1".data, "1x".data, "School".data⟩
  defaultSchoolId := "s1".data
  reprDict := fun _ => "dict".data
  todayYear := 2026

/-- C3: for every transport behavior and every input, verify returns a
workflow outcome: either the fully populated success shape (pending flag,
the fixed message, the verification id, the redirect url and final
status), or the fully populated failure shape whose message is exactly the
str of the exception that ended the body; nothing escapes the outer
try/except. -/
theorem C3_thm (vid : Str) (env : Env) (inp : VerifyInput) :
    (∃ d st tr, verifyBody env inp {} = (Except.ok d, st, tr) ∧
      (verify vid env inp).1 =
        ⟨true, some true, pendingReviewMsg, vid, some d.redirectUrl, some d.status⟩)
    ∨ (∃ e st tr, verifyBody env inp {} = (Except.error e, st, tr) ∧
      (verify vid env inp).1 = ⟨false, none, e, vid, none, none⟩) := by
  rcases hv : verifyBody env inp {} with ⟨r, st, tr⟩
  cases r with
  | ok d =>
    left
    exact ⟨d, st, tr, rfl, by simp [verify, hv]⟩
  | error e =>
    right
    exact ⟨e, st, tr, rfl, by simp [verify, hv]⟩

/-- C9: every military personal-info payload regenerated by the fallback
loop has a birth year in 1960..1985 and a discharge year at least 18 years
after the birth year and at most the previous calendar year, whenever the
current year is at least 2004 (for earlier clock years the degenerate
clamp at line 248-249 could not respect the lower bound). -/
theorem C9_thm (env : Env) (fn ln : Str) (org : MilOrg)
    (r bm bd dm dd : Nat) (em : Str) (st : VSt)
    (hty : 2004 ≤ env.todayYear) :
    ∃ dy st2, milDischargeM env (milBirthYear r) st =
        (Except.ok dy, st2, ([] : List TraceEv)) ∧
      1960 ≤ (mkMilPersonalBody fn ln org (milBirthYear r) bm bd dy dm dd em).birthDate.y ∧
      (mkMilPersonalBody fn ln org (milBirthYear r) bm bd dy dm dd em).birthDate.y ≤ 1985 ∧
      (mkMilPersonalBody fn ln org (milBirthYear r) bm bd dy dm dd em).birthDate.y + 18 ≤
        (mkMilPersonalBody fn ln org (milBirthYear r) bm bd dy dm dd em).dischargeDate.y ∧
      (mkMilPersonalBody fn ln org (milBirthYear r) bm bd dy dm dd em).dischargeDate.y ≤
        env.todayYear - 1 := by
  have hmod : r % (1985 + 1 - 1960) < 1985 + 1 - 1960 := Nat.mod_lt _ (by omega)
  have hb1 : 1960 ≤ milBirthYear r := by rw [milBirthYear, pyRandint]; omega
  have hb2 : milBirthYear r ≤ 1985 := by rw [milBirthYear, pyRandint]; omega
  by_cases hc : env.todayYear - 1 ≤ milBirthYear r + 18
  · refine ⟨env.todayYear - 1, st, ?_, hb1, hb2, ?_, le_refl _⟩
    · simp [milDischargeM, hc, mPure]
    · simp only [mkMilPersonalBody]
      omega
  · refine ⟨pyRandint (env.rand st.randIx) (milBirthYear r + 18) (env.todayYear - 1),
      { st with randIx := st.randIx + 1 }, ?_, hb1, hb2, ?_, ?_⟩
    · simp [milDischargeM, hc, mBind, randM, mPure]
    · simp only [mkMilPersonalBody]
      rw [pyRandint]
      omega
    · simp only [mkMilPersonalBody]
      rw [pyRandint]
      have hm2 : env.rand st.randIx % (env.todayYear - 1 + 1 - (milBirthYear r + 18)) <
          env.todayYear - 1 + 1 - (milBirthYear r + 18) := Nat.mod_lt _ (by omega)
      omega

/-- C9 witness: concrete draws under the 2026 clock. -/
theorem C9_wit :
    ∃ dy st2, milDischargeM envBase (milBirthYear 30) {} =
        (Except.ok dy, st2, ([] : List TraceEv)) ∧
      1960 ≤ (mkMilPersonalBody [] [] ⟨4070, []⟩ (milBirthYear 30) 1 1 dy 1 1 []).birthDate.y ∧
      (mkMilPersonalBody [] [] ⟨4070, []⟩ (milBirthYear 30) 1 1 dy 1 1 []).birthDate.y ≤ 1985 ∧
      (mkMilPersonalBody [] [] ⟨4070, []⟩ (milBirthYear 30) 1 1 dy 1 1 []).birthDate.y + 18 ≤
        (mkMilPersonalBody [] [] ⟨4070, []⟩ (milBirthYear 30) 1 1 dy 1 1 []).dischargeDate.y ∧
      (mkMilPersonalBody [] [] ⟨4070, []⟩ (milBirthYear 30) 1 1 dy 1 1 []).dischargeDate.y ≤
        envBase.todayYear - 1 :=
  C9_thm envBase [] [] ⟨4070, []⟩ 30 1 1 1 1 [] {} (by decide)

/-- C6 (amended): whenever the step reached after personal-info submission
is sso or collectTeacherPersonalInfo, the orchestrator issues exactly one
DELETE against the single-sign-on bypass endpoint; a transport-level
exception of that DELETE is fatal (it propagates); but the HTTP status
code of the DELETE response is never inspected, so a non-2xx response with
a dict body does not end the run — the flow continues with the updated
current step. -/
theorem C6_thm (env : Env) (cs : Str) (st : VSt)
    (h : cs = ssoKey ∨ cs = collectTeacherKey) :
    (ssoPhase env cs st).2.2 = [TraceEv.call CallKind.ssoBypass st.reqIx] ∧
    (∀ e, env.trans st.reqIx = Except.error e →
      (ssoPhase env cs st).1 = Except.error e) ∧
    (∀ d code, env.trans st.reqIx = Except.ok (JsonBody.dict d, code) →
      (ssoPhase env cs st).1 = Except.ok ((d.currentStep).getD cs)) := by
  have hcond : (cs == ssoKey || cs == collectTeacherKey) = true := by
    rcases h with h | h <;> simp [h]
  refine ⟨?_, ?_, ?_⟩
  · rcases htr : env.trans st.reqIx with e | ⟨b, code⟩
    · simp [ssoPhase, hcond, mBind, mPure, doReq, asDictM, throwM, htr]
    · cases b with
      | dict d => simp [ssoPhase, hcond, mBind, mPure, doReq, asDictM, throwM, htr]
      | text t => simp [ssoPhase, hcond, mBind, mPure, doReq, asDictM, throwM, htr]
  · intro e he
    simp [ssoPhase, hcond, mBind, mPure, doReq, asDictM, throwM, he]
  · intro d code hd
    simp [ssoPhase, hcond, mBind, mPure, doReq, asDictM, throwM, hd]

/-- C6 witness: a concrete state and a transport whose sso DELETE answers
with a dict body. -/
theorem C6_wit :
    (ssoPhase envBase ssoKey {}).2.2 = [TraceEv.call CallKind.ssoBypass 0] ∧
    (ssoPhase envBase ssoKey {}).1 = Except.ok ((emptyResp.currentStep).getD ssoKey) :=
  ⟨(C6_thm envBase ssoKey {} (Or.inl rfl)).1,
    (C6_thm envBase ssoKey {} (Or.inl rfl)).2.2 emptyResp 200 rfl⟩

/-- Transport script for the C6 counterexample: step 2 returns 200 and
puts the flow at the sso step; the sso DELETE answers with HTTP 500 and a
dict body; the later snapshot, doc-upload and completion calls succeed. -/
def env6 : Env := { envBase with
  trans := fun n =>
    match n with
    | 0 => Except.ok (JsonBody.dict { currentStep := some ssoKey }, 200)
    | 1 => Except.ok (JsonBody.dict { currentStep := some "docUpload".data }, 500)
    | 2 => Except.ok (JsonBody.dict { currentStep := some "docUpload".data }, 200)
    | 3 => Except.ok (JsonBody.dict
        { documents := some [⟨some "u1".data⟩, ⟨some "u2".data⟩] }, 200)
    | _ => Except.ok (JsonBody.dict { redirectUrl := some "r".data }, 200) }

/-- C6 counterexample: the sso-bypass DELETE fails with HTTP 500, the
DELETE was issued (request index 1 in the trace), and yet the run ends in
a successful outcome — the failure of the sso-bypass step is not fatal. -/
theorem C6_cex :
    env6.trans 1 = Except.ok (JsonBody.dict { currentStep := some "docUpload".data }, 500) ∧
    TraceEv.call CallKind.ssoBypass 1 ∈ (verify ("v".data) env6 {}).2.2 ∧
    (verify ("v".data) env6 {}).1.success = true := by
  refine ⟨rfl, ?_, ?_⟩
  · decide
  · decide

/-!
Trace closure lemmas: which events a phase can emit, and preservation of
the upload position.  Used for the ordering and spy-trace claims.
-/

def isSubmitCall : TraceEv → Bool
  | TraceEv.call CallKind.submitPersonalInfo _ => true
  | _ => false

def isMilStatusCall : TraceEv → Bool
  | TraceEv.call CallKind.militaryStatus _ => true
  | _ => false

/-- Events the military fallback can emit. -/
def milEv : TraceEv → Prop
  | TraceEv.call CallKind.militaryStatus _ => True
  | TraceEv.call CallKind.getVerStatus _ => True
  | TraceEv.call CallKind.militaryPersonalInfo _ => True
  | _ => False

/-- Events possible before the document phase: JSON calls other than the
doc-upload and completion endpoints, and no S3 puts. -/
def preDocEv : TraceEv → Prop
  | TraceEv.call CallKind.docUpload _ => False
  | TraceEv.call CallKind.completeDocUpload _ => False
  | TraceEv.s3put _ => False
  | TraceEv.call _ _ => True

/-- An action only emits events satisfying P and leaves the upload
position unchanged. -/
def Emits (P : TraceEv → Prop) {α : Type} (x : M α) : Prop :=
  ∀ st, (∀ ev ∈ (x st).2.2, P ev) ∧ (x st).2.1.upIx = st.upIx

theorem emits_mPure {α : Type} (P : TraceEv → Prop) (a : α) : Emits P (mPure a) := by
  intro st; simp [mPure]

theorem emits_throwM {α : Type} (P : TraceEv → Prop) (e : Str) :
    Emits P (throwM e : M α) := by
  intro st; simp [throwM]

theorem emits_mBind {α β : Type} {P : TraceEv → Prop} {x : M α} {f : α → M β}
    (hx : Emits P x) (hf : ∀ a, Emits P (f a)) : Emits P (mBind x f) := by
  intro st
  have hx1 := hx st
  rcases hxs : x st with ⟨r, st1, tr1⟩
  rw [hxs] at hx1
  cases r with
  | error e =>
    constructor
    · intro ev hev
      simp only [mBind, hxs] at hev
      exact hx1.1 ev hev
    · simp only [mBind, hxs]
      exact hx1.2
  | ok a =>
    have hf1 := hf a st1
    rcases hfs : f a st1 with ⟨r2, st2, tr2⟩
    rw [hfs] at hf1
    constructor
    · intro ev hev
      simp only [mBind, hxs, hfs] at hev
      rcases List.mem_append.mp hev with h | h
      · exact hx1.1 ev h
      · exact hf1.1 ev h
    · simp only [mBind, hxs, hfs]
      have h2 : st2.upIx = st1.upIx := hf1.2
      have h1 : st1.upIx = st.upIx := hx1.2
      rw [h2, h1]

theorem emits_bind {α β : Type} {P : TraceEv → Prop} {x : M α} {f : α → M β}
    (hx : Emits P x) (hf : ∀ a, Emits P (f a)) : Emits P (x >>= f) :=
  emits_mBind hx hf

theorem emits_doReq {P : TraceEv → Prop} (env : Env) (k : CallKind)
    (hk : ∀ i, P (TraceEv.call k i)) : Emits P (doReq env k) := by
  intro st
  constructor
  · intro ev hev
    simp only [doReq, List.mem_singleton] at hev
    subst hev
    exact hk st.reqIx
  · simp [doReq]

theorem emits_pyTry {α : Type} {P : TraceEv → Prop} {x : M α} (hx : Emits P x) :
    Emits P (pyTry x) :=
  fun st => ⟨fun ev hev => (hx st).1 ev hev, (hx st).2⟩

theorem emits_randM (P : TraceEv → Prop) (env : Env) : Emits P (randM env) := by
  intro st; simp [randM]

theorem emits_genPairM (P : TraceEv → Prop) (env : Env) : Emits P (genPairM env) := by
  intro st; simp [genPairM]

theorem emits_genEmailM (P : TraceEv → Prop) (env : Env) : Emits P (genEmailM env) := by
  intro st; simp [genEmailM]

theorem emits_liftE {α : Type} (P : TraceEv → Prop) (x : Except Str α) :
    Emits P (liftE x) := by
  intro st; simp [liftE]

theorem emits_ite {α : Type} {P : TraceEv → Prop} (c : Prop) [Decidable c]
    {x y : M α} (hx : Emits P x) (hy : Emits P y) :
    Emits P (if c then x else y) := by
  by_cases h : c
  · simpa [h] using hx
  · simpa [h] using hy

theorem emits_mono {α : Type} {P Q : TraceEv → Prop} {x : M α}
    (hx : Emits P x) (h : ∀ ev, P ev → Q ev) : Emits Q x :=
  fun st => ⟨fun ev hev => h ev ((hx st).1 ev hev), (hx st).2⟩

theorem emits_jsonCurrentStepM (P : TraceEv → Prop) (b : JsonBody) :
    Emits P (jsonCurrentStepM b) := by
  rcases b with d | t
  · show Emits P (mPure d.currentStep)
    exact emits_mPure P _
  · show Emits P (throwM pyAttrError)
    exact emits_throwM P _

theorem emits_milCurrentM (P : TraceEv → Prop) (vb sd : JsonBody) :
    Emits P (milCurrentM vb sd) := by
  rw [milCurrentM]
  simp only [bind_def]
  apply emits_mBind (emits_jsonCurrentStepM P vb)
  intro v
  rcases v with _ | cs
  · apply emits_mBind (emits_jsonCurrentStepM P sd)
    intro w
    rcases w with _ | ds
    · exact emits_mPure P _
    · cases ds with
      | nil => exact emits_mPure P _
      | cons c cs2 => exact emits_mPure P _
  · cases cs with
    | nil =>
      apply emits_mBind (emits_jsonCurrentStepM P sd)
      intro w
      rcases w with _ | ds
      · exact emits_mPure P _
      · cases ds with
        | nil => exact emits_mPure P _
        | cons c cs2 => exact emits_mPure P _
    | cons c cs => exact emits_mPure P _

theorem milEv_status (i : Nat) : milEv (TraceEv.call CallKind.militaryStatus i) := trivial

theorem milEv_get (i : Nat) : milEv (TraceEv.call CallKind.getVerStatus i) := trivial

theorem milEv_personal (i : Nat) :
    milEv (TraceEv.call CallKind.militaryPersonalInfo i) := trivial

theorem emits_milDischargeM (P : TraceEv → Prop) (env : Env) (b : Nat) :
    Emits P (milDischargeM env b) := by
  rw [milDischargeM]
  apply emits_ite
  · exact emits_mPure _ _
  · exact emits_mBind (emits_randM _ env) (fun r => emits_mPure _ _)

theorem emits_regenFirstM (P : TraceEv → Prop) (env : Env) (fn : Str) :
    Emits P (regenFirstM env fn) := by
  rw [regenFirstM]
  apply emits_ite
  · exact emits_mBind (emits_genPairM _ env) (fun p => emits_mPure _ _)
  · exact emits_mPure _ _

theorem emits_regenLastM (P : TraceEv → Prop) (env : Env) (ln : Str) :
    Emits P (regenLastM env ln) := by
  rw [regenLastM]
  apply emits_ite
  · exact emits_mBind (emits_genPairM _ env) (fun p => emits_mPure _ _)
  · exact emits_mPure _ _

theorem emits_milPersonalLoop (env : Env) :
    ∀ (fuel : Nat) (fn ln le : Str), Emits milEv (milPersonalLoop env fuel fn ln le) := by
  intro fuel
  induction fuel with
  | zero => intro fn ln le; exact emits_mPure _ _
  | succ n ih =>
    intro fn ln le
    rw [milPersonalLoop]
    simp only [bind_def, pure_def]
    apply emits_mBind (emits_randM _ env); intro rorg
    dsimp only
    apply emits_mBind (emits_regenFirstM _ env _); intro fn1
    apply emits_mBind (emits_regenLastM _ env _); intro ln1
    dsimp only
    apply emits_mBind (emits_randM _ env); intro rby
    dsimp only
    apply emits_mBind (emits_randM _ env); intro rbm
    apply emits_mBind (emits_randM _ env); intro rbd
    apply emits_mBind (emits_milDischargeM _ env _); intro dy
    apply emits_mBind (emits_randM _ env); intro rdm
    apply emits_mBind (emits_randM _ env); intro rdd
    apply emits_mBind (emits_genEmailM _ env); intro em
    dsimp only
    apply emits_mBind (emits_pyTry (emits_doReq env CallKind.militaryPersonalInfo milEv_personal))
    intro res
    rcases res with e | ⟨pd, ps⟩
    · exact ih _ _ _
    · dsimp only
      apply emits_ite
      · exact emits_mPure _ _
      · exact ih _ _ _

theorem emits_milStatusLoop (env : Env) :
    ∀ (fuel : Nat) (statuses : List Str) (fn ln le : Str),
      Emits milEv (milStatusLoop env fuel statuses fn ln le) := by
  intro fuel
  induction fuel with
  | zero => intro statuses fn ln le; exact emits_throwM _ _
  | succ n ih =>
    intro statuses fn ln le
    rw [milStatusLoop]
    simp only [bind_def, pure_def]
    apply emits_mBind (emits_randM _ env); intro rch
    dsimp only
    apply emits_mBind (emits_pyTry (emits_doReq env CallKind.militaryStatus milEv_status))
    intro res
    rcases res with e | ⟨sd, sc⟩
    · exact ih _ _ _ _
    · dsimp only
      apply emits_ite
      · exact ih _ _ _ _
      · apply emits_mBind (emits_pyTry (emits_doReq env CallKind.getVerStatus milEv_get))
        intro vr
        dsimp only
        apply emits_mBind (emits_milCurrentM _ _ _)
        intro cur
        apply emits_ite
        · apply emits_mBind (emits_milPersonalLoop env 3 fn ln le)
          intro pres
          rcases pres with r | ⟨fn2, ln2, le2⟩
          · exact emits_mPure _ _
          · exact ih _ _ _ _
        · exact emits_mPure _ _

/-- The first transport interaction of a military status attempt is the
POST to collectMilitaryStatus. -/
theorem milStatusLoop_head (env : Env) (n : Nat) (statuses : List Str)
    (fn ln le : Str) (st : VSt) :
    ∃ rest, (milStatusLoop env (n + 1) statuses fn ln le st).2.2 =
      TraceEv.call CallKind.militaryStatus st.reqIx :: rest := by
  rw [milStatusLoop]
  simp only [bind_def, pure_def, mBind, randM, pyTry, doReq]
  exact ⟨_, rfl⟩

theorem milEv_not_submit (ev : TraceEv) (h : milEv ev) : isSubmitCall ev = false := by
  rcases ev with ⟨k, i⟩ | i
  · cases k <;> first | rfl | exact h.elim
  · rfl

theorem step2FinalCheck_traceless (env : Env) (d : JsonBody) (c : Nat) (st : VSt) :
    (step2FinalCheckM env d c st).2.2 = [] := by
  by_cases h : (c != 200) = true
  · simp [step2FinalCheckM, h, throwM]
  · simp [step2FinalCheckM, h, mPure]

theorem mBind_trace_of_traceless {α β : Type} (x : M α) (f : α → M β)
    (hf : ∀ a st, (f a st).2.2 = []) (st : VSt) :
    (mBind x f st).2.2 = (x st).2.2 := by
  rcases hxs : x st with ⟨r, st1, tr1⟩
  cases r with
  | error e => simp [mBind, hxs]
  | ok a =>
    rcases hfs : f a st1 with ⟨r2, st2, tr2⟩
    have h2 := hf a st1
    rw [hfs] at h2
    simp only at h2
    simp [mBind, hxs, hfs, h2]

/-- C2 counterexample: with an errorIds value that makes the military
decision true (camel-case invalidStep), the handler still performs the
referrer-stripping retry — the retry count in its trace is one, not
zero. -/
theorem C2_cex :
    shouldTryMilitary (JsonBody.dict { errorIds := some ["invalidStep".data] })
      emptyResp = true ∧
    (step2Fallback envBase ("Ann".data) ("Lee".data)
        (JsonBody.dict { errorIds := some ["invalidStep".data] }) 400 {}).2.2.countP
      isSubmitCall = 1 := by
  exact ⟨by decide, by decide⟩

/-- C2 (amended): when the snapshot fetch yields a dict, the handler
always performs the referrer-stripping retry, exactly once, as the first
transport action after the snapshot fetch — regardless of the
switch-to-military conditions; the military fallback is entered exactly
when the retry response still carries a non-200 status and the military
decision holds.  The priority the specification describes (military
conditions suppress the retry) is not implemented. -/
theorem C2_thm (env : Env) (fn ln : Str) (d2 : JsonBody) (s2 : Nat) (st : VSt)
    (vs : RespData) (code : Nat)
    (hsnap : env.trans st.reqIx = Except.ok (JsonBody.dict vs, code)) :
    ((step2Fallback env fn ln d2 s2 st).2.2.countP isSubmitCall = 1)
    ∧ ((step2Fallback env fn ln d2 s2 st).2.2.take 2 =
        [TraceEv.call CallKind.getVerStatus st.reqIx,
         TraceEv.call CallKind.submitPersonalInfo (st.reqIx + 1)])
    ∧ (0 < (step2Fallback env fn ln d2 s2 st).2.2.countP isMilStatusCall ↔
        (∃ b c, env.trans (st.reqIx + 1) = Except.ok (b, c) ∧ c ≠ 200 ∧
          shouldTryMilitary d2 vs = true)) := by
  have hm : refererUrlKey ∈ step2MetadataKeys := by decide
  rcases h2 : env.trans (st.reqIx + 1) with e | ⟨b, c⟩
  · refine ⟨?_, ?_, ?_⟩ <;>
      simp [step2Fallback, mBind, mPure, pyTry, doReq, asDictM, retryStepM,
        milFallbackM, hsnap, hm, h2, isSubmitCall, isMilStatusCall]
  · by_cases hbc : (c != 200 && shouldTryMilitary d2 vs) = true
    · have hand := hbc
      simp only [Bool.and_eq_true, bne_iff_ne, ne_eq] at hand
      simp only [step2Fallback, bind_def, pure_def, mBind, mPure, pyTry, doReq,
        asDictM, retryStepM, milFallbackM, hsnap, hm, h2, if_pos, if_true,
        eq_self_iff_true, hbc]
      rcases hml : milStatusLoop env 4 (pyOrList vs.availableStatuses defaultStatuses)
          fn ln (['N', 'o', 'n', 'e'])
          (⟨st.reqIx + 1 + 1, st.randIx, st.genIx, st.emailIx, st.upIx⟩ : VSt)
        with ⟨rm, stm3, trm⟩
      have hEm := (emits_milStatusLoop env 4 (pyOrList vs.availableStatuses defaultStatuses)
          fn ln (['N', 'o', 'n', 'e']))
          (⟨st.reqIx + 1 + 1, st.randIx, st.genIx, st.emailIx, st.upIx⟩ : VSt)
      simp only [hml] at hEm
      have hAll : ∀ ev ∈ trm, milEv ev := hEm.1
      have hZero : trm.countP isSubmitCall = 0 :=
        List.countP_eq_zero.mpr (fun ev hev => by simp [milEv_not_submit ev (hAll ev hev)])
      have hhead := milStatusLoop_head env 3 (pyOrList vs.availableStatuses defaultStatuses)
          fn ln (['N', 'o', 'n', 'e'])
          (⟨st.reqIx + 1 + 1, st.randIx, st.genIx, st.emailIx, st.upIx⟩ : VSt)
      rw [show (3 + 1 : Nat) = 4 from rfl] at hhead
      simp only [hml] at hhead
      obtain ⟨rest, hrest⟩ := hhead
      cases rm with
      | error e =>
        simp only [hml]
        refine ⟨?_, ?_, ?_⟩
        · simp [List.countP_append, List.countP_cons, isSubmitCall, hZero]
        · simp [List.singleton_append, List.nil_append]
        · constructor
          · intro _
            exact ⟨b, c, rfl, hand.1, hand.2⟩
          · intro _
            rw [List.countP_pos_iff]
            refine ⟨TraceEv.call CallKind.militaryStatus
              (⟨st.reqIx + 1 + 1, st.randIx, st.genIx, st.emailIx, st.upIx⟩ : VSt).reqIx,
              ?_, rfl⟩
            simp [hrest, List.mem_append, List.mem_cons]
      | ok a =>
        simp only [hml]
        refine ⟨?_, ?_, ?_⟩
        · simp [List.countP_append, List.countP_cons, isSubmitCall, hZero,
            step2FinalCheck_traceless]
        · simp [List.singleton_append, List.nil_append]
        · constructor
          · intro _
            exact ⟨b, c, rfl, hand.1, hand.2⟩
          · intro _
            rw [List.countP_pos_iff]
            refine ⟨TraceEv.call CallKind.militaryStatus
              (⟨st.reqIx + 1 + 1, st.randIx, st.genIx, st.emailIx, st.upIx⟩ : VSt).reqIx,
              ?_, rfl⟩
            simp [hrest, List.mem_append, List.mem_cons, step2FinalCheck_traceless]
    · simp only [step2Fallback, bind_def, pure_def, mBind, mPure, pyTry, doReq,
        asDictM, retryStepM, milFallbackM, hsnap, hm, h2, hbc, if_true, if_false,
        eq_self_iff_true, step2FinalCheck_traceless]
      refine ⟨?_, ?_, ?_⟩
      · simp [mPure, List.countP_append, List.countP_cons, isSubmitCall]
      · simp [mPure, List.singleton_append, List.nil_append]
      · constructor
        · intro h
          exfalso
          simp [mPure, List.countP_append, List.countP_cons, isMilStatusCall] at h
        · rintro ⟨b1, c1, heq, hne, hstm⟩
          exfalso
          injection heq with heq2
          rw [Prod.mk.injEq] at heq2
          obtain ⟨hb1, hc1⟩ := heq2
          subst hc1
          apply hbc
          simp [Bool.and_eq_true, bne_iff_ne, hne, hstm]

/-- C2 witness: the retry count is exactly one at a concrete environment
whose snapshot fetch returns an empty dict. -/
theorem C2_wit :
    (step2Fallback envBase ("Ann".data) ("Lee".data)
        (JsonBody.dict emptyResp) 400 {}).2.2.countP isSubmitCall = 1 :=
  (C2_thm envBase ("Ann".data) ("Lee".data) (JsonBody.dict emptyResp) 400 {}
    emptyResp 200 rfl).1

theorem milEv_preDoc (ev : TraceEv) (h : milEv ev) : preDocEv ev := by
  rcases ev with ⟨k, i⟩ | i
  · cases k <;> first | trivial | exact h.elim
  · exact h.elim

theorem preDocEv_get (i : Nat) : preDocEv (TraceEv.call CallKind.getVerStatus i) := trivial

theorem preDocEv_submit (i : Nat) :
    preDocEv (TraceEv.call CallKind.submitPersonalInfo i) := trivial

theorem preDocEv_sso (i : Nat) : preDocEv (TraceEv.call CallKind.ssoBypass i) := trivial

theorem preDocEv_resend (i : Nat) :
    preDocEv (TraceEv.call CallKind.emailLoopResend i) := trivial

theorem emits_asDictM (P : TraceEv → Prop) (b : JsonBody) : Emits P (asDictM b) := by
  rcases b with d | t
  · exact emits_mPure P _
  · exact emits_throwM P _

theorem emits_keyGetM (P : TraceEv → Prop) (o : Option Str) : Emits P (keyGetM o) := by
  rcases o with _ | u
  · exact emits_throwM P _
  · exact emits_mPure P _

theorem emits_step2FinalCheckM (P : TraceEv → Prop) (env : Env) (d : JsonBody) (c : Nat) :
    Emits P (step2FinalCheckM env d c) := by
  rw [step2FinalCheckM]
  apply emits_ite
  · exact emits_throwM P _
  · exact emits_mPure P _

theorem emits_resolveNamesM (P : TraceEv → Prop) (env : Env) (inp : VerifyInput) :
    Emits P (resolveNamesM env inp) := by
  rw [resolveNamesM]
  apply emits_ite
  · exact emits_genPairM P env
  · exact emits_mPure P _

theorem emits_schoolLookupM (P : TraceEv → Prop) (env : Env) (sid : Str) :
    Emits P (schoolLookupM env sid) := by
  rw [schoolLookupM]
  rcases env.schools sid with _ | sc
  · exact emits_throwM P _
  · exact emits_mPure P _

theorem emits_resolveEmailM (P : TraceEv → Prop) (env : Env) (inp : VerifyInput) :
    Emits P (resolveEmailM env inp) := by
  rw [resolveEmailM]
  apply emits_ite
  · exact emits_genEmailM P env
  · exact emits_mPure P _

theorem emits_setupPhase (P : TraceEv → Prop) (env : Env) (inp : VerifyInput) :
    Emits P (setupPhase env inp) := by
  rw [setupPhase]
  simp only [bind_def, pure_def]
  apply emits_mBind (emits_resolveNamesM P env inp)
  intro a
  rcases a with ⟨fn, ln⟩
  dsimp only
  apply emits_mBind (emits_schoolLookupM P env _)
  intro _
  apply emits_mBind (emits_resolveEmailM P env inp)
  intro em
  dsimp only
  apply emits_mBind (emits_liftE P env.genPdf)
  intro psz
  apply emits_mBind (emits_liftE P env.genPng)
  intro gsz
  exact emits_mPure P _

theorem emits_retryStepM (env : Env) (d2 : JsonBody) (s2 : Nat) :
    Emits preDocEv (retryStepM env d2 s2) := by
  rw [retryStepM]
  apply emits_ite
  · exact emits_doReq env CallKind.submitPersonalInfo preDocEv_submit
  · exact emits_mPure _ _

theorem emits_milFallbackM (env : Env) (stm : Bool) (statuses : List Str)
    (fn ln : Str) (d2b : JsonBody) (s2b : Nat) :
    Emits preDocEv (milFallbackM env stm statuses fn ln d2b s2b) := by
  rw [milFallbackM]
  apply emits_ite
  · exact emits_mono (emits_milStatusLoop env 4 statuses fn ln _) milEv_preDoc
  · exact emits_mPure _ _

theorem emits_step2Fallback (env : Env) (fn ln : Str) (d2 : JsonBody) (s2 : Nat) :
    Emits preDocEv (step2Fallback env fn ln d2 s2) := by
  rw [step2Fallback]
  simp only [bind_def, pure_def]
  apply emits_mBind (emits_pyTry (emits_doReq env CallKind.getVerStatus preDocEv_get))
  intro vr
  dsimp only
  apply emits_mBind (emits_asDictM _ _)
  intro vs
  dsimp only
  apply emits_mBind (emits_retryStepM env d2 s2)
  intro a
  rcases a with ⟨d2b, s2b⟩
  dsimp only
  apply emits_mBind (emits_milFallbackM env _ _ fn ln d2b s2b)
  intro b
  rcases b with ⟨d2c, s2c⟩
  exact emits_step2FinalCheckM _ env d2c s2c

theorem emits_step2ResolveM (env : Env) (fn ln : Str) (d20 : JsonBody) (s20 : Nat) :
    Emits preDocEv (step2ResolveM env fn ln d20 s20) := by
  rw [step2ResolveM]
  apply emits_ite
  · exact emits_step2Fallback env fn ln d20 s20
  · exact emits_mPure _ _

theorem emits_ssoPhase (env : Env) (cs : Str) : Emits preDocEv (ssoPhase env cs) := by
  rw [ssoPhase]
  apply emits_ite
  · simp only [bind_def, pure_def]
    apply emits_mBind (emits_doReq env CallKind.ssoBypass preDocEv_sso)
    intro a
    rcases a with ⟨d3, c3⟩
    dsimp only
    apply emits_mBind (emits_asDictM _ _)
    intro d3d
    exact emits_mPure _ _
  · exact emits_mPure _ _

theorem emits_readCurrentM (P : TraceEv → Prop) (b : JsonBody) :
    Emits P (readCurrentM b) := by
  rw [readCurrentM]
  simp only [bind_def, pure_def]
  apply emits_mBind (emits_asDictM P b)
  intro d
  exact emits_mPure P _

theorem emits_pollLoop (env : Env) :
    ∀ (fuel : Nat) (vc : JsonBody × Str), Emits preDocEv (pollLoop env fuel vc) := by
  intro fuel
  induction fuel with
  | zero => intro vc; exact emits_mPure _ _
  | succ n ih =>
    intro vc
    rcases vc with ⟨vb, cur⟩
    rw [pollLoop]
    apply emits_ite
    · exact emits_mPure _ _
    · simp only [bind_def, pure_def]
      apply emits_mBind (emits_pyTry (emits_doReq env CallKind.getVerStatus preDocEv_get))
      intro vr
      dsimp only
      apply emits_mBind (emits_readCurrentM _ _)
      intro cur2
      exact ih _

theorem emits_emailPollLoop (env : Env) :
    ∀ (fuel : Nat), Emits preDocEv (emailPollLoop env fuel) := by
  intro fuel
  induction fuel with
  | zero => exact emits_throwM _ _
  | succ n ih =>
    rw [emailPollLoop]
    simp only [bind_def, pure_def]
    apply emits_mBind (emits_pyTry (emits_doReq env CallKind.getVerStatus preDocEv_get))
    intro vr
    dsimp only
    apply emits_mBind (emits_readCurrentM _ _)
    intro cur
    apply emits_ite
    · exact emits_mPure _ _
    · exact ih

theorem emits_emailPhase (env : Env) (resendEmail : Bool) (vb : JsonBody) (cur : Str) :
    Emits preDocEv (emailPhase env resendEmail vb cur) := by
  rw [emailPhase]
  apply emits_ite
  · apply emits_ite
    · exact emits_throwM _ _
    · simp only [bind_def, pure_def]
      apply emits_mBind (emits_asDictM _ vb)
      intro vd
      apply emits_ite
      · exact emits_throwM _ _
      · apply emits_ite
        · exact emits_throwM _ _
        · apply emits_mBind
            (emits_pyTry (emits_doReq env CallKind.emailLoopResend preDocEv_resend))
          intro r
          rcases r with e | u
          · exact emits_throwM _ _
          · exact emits_emailPollLoop env 30
  · exact emits_mPure _ _

theorem emits_preDocPart (env : Env) (inp : VerifyInput) :
    Emits preDocEv (preDocPart env inp) := by
  rw [preDocPart]
  simp only [bind_def, pure_def]
  apply emits_mBind (emits_setupPhase _ env inp)
  intro su
  apply emits_mBind (emits_doReq env CallKind.submitPersonalInfo preDocEv_submit)
  intro a
  rcases a with ⟨d20, s20⟩
  dsimp only
  apply emits_mBind (emits_step2ResolveM env _ _ d20 s20)
  intro b
  rcases b with ⟨d2, s2x⟩
  dsimp only
  apply emits_mBind (emits_asDictM _ d2)
  intro dd2
  apply emits_ite
  · exact emits_throwM _ _
  · dsimp only
    apply emits_mBind (emits_ssoPhase env _)
    intro cs2
    apply emits_mBind (emits_pyTry (emits_doReq env CallKind.getVerStatus preDocEv_get))
    intro vr
    dsimp only
    apply emits_mBind (emits_readCurrentM _ _)
    intro cur0
    apply emits_mBind (emits_pollLoop env 3 _)
    intro vc
    rcases vc with ⟨vb2, cur⟩
    exact emits_emailPhase env inp.resend_email vb2 cur

theorem docPhase_eval_err (env : Env) (st1 : VSt) (e : Str)
    (h : env.trans st1.reqIx = Except.error e) :
    ∃ st2, docPhase env st1 =
      (Except.error e, st2, [TraceEv.call CallKind.docUpload st1.reqIx]) := by
  simp only [docPhase, bind_def, pure_def, mBind, mPure, pyTry, doReq, asDictM,
    throwM, h, List.cons_append, List.nil_append, List.append_nil]
  exact ⟨_, rfl⟩

theorem docPhase_eval_text (env : Env) (st1 : VSt) (t : Str) (s : Nat)
    (h : env.trans st1.reqIx = Except.ok (JsonBody.text t, s)) :
    ∃ st2, docPhase env st1 =
      (Except.error pyAttrError, st2, [TraceEv.call CallKind.docUpload st1.reqIx]) := by
  simp only [docPhase, bind_def, pure_def, mBind, mPure, pyTry, doReq, asDictM,
    throwM, h, List.cons_append, List.nil_append, List.append_nil]
  exact ⟨_, rfl⟩

theorem docPhase_eval_fewdocs (env : Env) (st1 : VSt) (d : RespData) (s : Nat)
    (h : env.trans st1.reqIx = Except.ok (JsonBody.dict d, s))
    (hlen : (pyOrList d.documents []).length < 2) :
    ∃ st2, docPhase env st1 = (Except.error uploadUrlsFailMsg, st2,
      [TraceEv.call CallKind.docUpload st1.reqIx,
       TraceEv.call CallKind.getVerStatus (st1.reqIx + 1)]) := by
  rcases hdl : pyOrList d.documents [] with _ | ⟨e0, tl⟩
  · simp only [docPhase, bind_def, pure_def, mBind, mPure, pyTry, doReq, asDictM,
      throwM, h, hdl, List.cons_append, List.nil_append, List.append_nil]
    exact ⟨_, rfl⟩
  · cases tl with
    | nil =>
      simp only [docPhase, bind_def, pure_def, mBind, mPure, pyTry, doReq, asDictM,
        throwM, h, hdl, List.cons_append, List.nil_append, List.append_nil]
      exact ⟨_, rfl⟩
    | cons e1 tl2 =>
      exfalso
      rw [hdl] at hlen
      simp at hlen
      omega

theorem docPhase_eval_noUrl0 (env : Env) (st1 : VSt) (d : RespData) (s : Nat)
    (e0 e1 : DocEntry) (tl : List DocEntry)
    (h : env.trans st1.reqIx = Except.ok (JsonBody.dict d, s))
    (hdl : pyOrList d.documents [] = e0 :: e1 :: tl)
    (hu0 : e0.uploadUrl = none) :
    ∃ st2, docPhase env st1 =
      (Except.error pyKeyError, st2, [TraceEv.call CallKind.docUpload st1.reqIx]) := by
  simp only [docPhase, bind_def, pure_def, mBind, mPure, pyTry, doReq, asDictM,
    throwM, keyGetM, h, hdl, hu0, List.cons_append, List.nil_append, List.append_nil]
  exact ⟨_, rfl⟩

theorem docPhase_eval_noUrl1 (env : Env) (st1 : VSt) (d : RespData) (s : Nat)
    (e0 e1 : DocEntry) (tl : List DocEntry) (u0 : Str)
    (h : env.trans st1.reqIx = Except.ok (JsonBody.dict d, s))
    (hdl : pyOrList d.documents [] = e0 :: e1 :: tl)
    (hu0 : e0.uploadUrl = some u0) (hu1 : e1.uploadUrl = none) :
    ∃ st2, docPhase env st1 =
      (Except.error pyKeyError, st2, [TraceEv.call CallKind.docUpload st1.reqIx]) := by
  simp only [docPhase, bind_def, pure_def, mBind, mPure, pyTry, doReq, asDictM,
    throwM, keyGetM, h, hdl, hu0, hu1, List.cons_append, List.nil_append, List.append_nil]
  exact ⟨_, rfl⟩

theorem docPhase_eval_pdfFail (env : Env) (st1 : VSt) (d : RespData) (s : Nat)
    (e0 e1 : DocEntry) (tl : List DocEntry) (u0 u1 : Str)
    (h : env.trans st1.reqIx = Except.ok (JsonBody.dict d, s))
    (hdl : pyOrList d.documents [] = e0 :: e1 :: tl)
    (hu0 : e0.uploadUrl = some u0) (hu1 : e1.uploadUrl = some u1)
    (hup0 : env.upload st1.upIx = false) :
    ∃ st2, docPhase env st1 = (Except.error pdfFailMsg, st2,
      [TraceEv.call CallKind.docUpload st1.reqIx, TraceEv.s3put st1.upIx]) := by
  simp only [docPhase, bind_def, pure_def, mBind, mPure, pyTry, doReq, asDictM,
    throwM, keyGetM, doUpload, h, hdl, hu0, hu1, hup0, Bool.not_false, Bool.not_true,
    if_true, if_false, List.cons_append, List.nil_append, List.append_nil]
  exact ⟨_, rfl⟩

theorem bool_false_eq_true_iff : (false = true) = False := by simp

theorem docPhase_eval_pngFail (env : Env) (st1 : VSt) (d : RespData) (s : Nat)
    (e0 e1 : DocEntry) (tl : List DocEntry) (u0 u1 : Str)
    (h : env.trans st1.reqIx = Except.ok (JsonBody.dict d, s))
    (hdl : pyOrList d.documents [] = e0 :: e1 :: tl)
    (hu0 : e0.uploadUrl = some u0) (hu1 : e1.uploadUrl = some u1)
    (hup0 : env.upload st1.upIx = true)
    (hup1 : env.upload (st1.upIx + 1) = false) :
    ∃ st2, docPhase env st1 = (Except.error pngFailMsg, st2,
      [TraceEv.call CallKind.docUpload st1.reqIx, TraceEv.s3put st1.upIx,
       TraceEv.s3put (st1.upIx + 1)]) := by
  simp only [docPhase, bind_def, pure_def, mBind, mPure, pyTry, doReq, asDictM,
    throwM, keyGetM, doUpload, h, hdl, hu0, hu1, hup0, hup1, Bool.not_false,
    Bool.not_true, bool_false_eq_true_iff, if_true, if_false, List.cons_append,
    List.nil_append, List.append_nil]
  exact ⟨_, rfl⟩

theorem docPhase_eval_done (env : Env) (st1 : VSt) (d : RespData) (s : Nat)
    (e0 e1 : DocEntry) (tl : List DocEntry) (u0 u1 : Str)
    (h : env.trans st1.reqIx = Except.ok (JsonBody.dict d, s))
    (hdl : pyOrList d.documents [] = e0 :: e1 :: tl)
    (hu0 : e0.uploadUrl = some u0) (hu1 : e1.uploadUrl = some u1)
    (hup0 : env.upload st1.upIx = true)
    (hup1 : env.upload (st1.upIx + 1) = true) :
    ∃ r st2, docPhase env st1 = (r, st2,
      [TraceEv.call CallKind.docUpload st1.reqIx, TraceEv.s3put st1.upIx,
       TraceEv.s3put (st1.upIx + 1),
       TraceEv.call CallKind.completeDocUpload (st1.reqIx + 1)]) := by
  rcases h6 : env.trans (st1.reqIx + 1) with e | ⟨b6, s6⟩
  · simp only [docPhase, bind_def, pure_def, mBind, mPure, pyTry, doReq, asDictM,
      throwM, keyGetM, doUpload, h, hdl, hu0, hu1, hup0, hup1, h6, Bool.not_false,
      Bool.not_true, bool_false_eq_true_iff, if_true, if_false, List.cons_append,
      List.nil_append, List.append_nil]
    exact ⟨_, _, rfl⟩
  · cases b6 with
    | text t =>
      simp only [docPhase, bind_def, pure_def, mBind, mPure, pyTry, doReq, asDictM,
        throwM, keyGetM, doUpload, h, hdl, hu0, hu1, hup0, hup1, h6, Bool.not_false,
        Bool.not_true, bool_false_eq_true_iff, if_true, if_false, List.cons_append,
        List.nil_append, List.append_nil]
      exact ⟨_, _, rfl⟩
    | dict dd =>
      simp only [docPhase, bind_def, pure_def, mBind, mPure, pyTry, doReq, asDictM,
        throwM, keyGetM, doUpload, h, hdl, hu0, hu1, hup0, hup1, h6, Bool.not_false,
        Bool.not_true, bool_false_eq_true_iff, if_true, if_false, List.cons_append,
        List.nil_append, List.append_nil]
      exact ⟨_, _, rfl⟩

theorem trace_docCall_pin (st1 : VSt) (tr1 tr2 : List TraceEv) (i : Nat)
    (hPD1 : ∀ ev ∈ tr1, preDocEv ev)
    (hmem : TraceEv.call CallKind.docUpload i ∈ tr1 ++ tr2)
    (honly : ∀ j, TraceEv.call CallKind.docUpload j ∈ tr2 → j = st1.reqIx) :
    i = st1.reqIx := by
  rcases List.mem_append.mp hmem with h3 | h3
  · exact (hPD1 _ h3).elim
  · exact honly i h3

/-- C8: whenever the doc-upload call was issued and its transport answer
is a dict whose documents list (after the or-empty default) has fewer than
two entries, the run fails with exactly the Failed to retrieve Upload URLs
outcome, whose message mentions Upload URLs, and no S3 upload is ever
attempted in the whole run. -/
theorem C8_thm (vid : Str) (env : Env) (inp : VerifyInput) (i : Nat)
    (d : RespData) (s : Nat)
    (hcall : TraceEv.call CallKind.docUpload i ∈ (verify vid env inp).2.2)
    (hresp : env.trans i = Except.ok (JsonBody.dict d, s))
    (hdocs : (pyOrList d.documents []).length < 2) :
    (verify vid env inp).1 = ⟨false, none, uploadUrlsFailMsg, vid, none, none⟩ ∧
    substrOf ("Upload URLs".data) (verify vid env inp).1.message = true ∧
    (∀ j, TraceEv.s3put j ∉ (verify vid env inp).2.2) := by
  rcases hpre : preDocPart env inp {} with ⟨rp, st1, tr1⟩
  have hPD := emits_preDocPart env inp ({} : VSt)
  rw [hpre] at hPD
  have hPD1 : ∀ ev ∈ tr1, preDocEv ev := hPD.1
  cases rp with
  | error e =>
    exfalso
    have hmem : TraceEv.call CallKind.docUpload i ∈ tr1 := by
      simpa [verify, verifyBody, bind_def, pure_def, mBind, hpre] using hcall
    exact (hPD1 _ hmem).elim
  | ok u =>
    rcases htr : env.trans st1.reqIx with e | ⟨bb, ss⟩
    · obtain ⟨st2, hdoc⟩ := docPhase_eval_err env st1 e htr
      exfalso
      have hmem : TraceEv.call CallKind.docUpload i ∈
          tr1 ++ [TraceEv.call CallKind.docUpload st1.reqIx] := by
        simpa [verify, verifyBody, bind_def, pure_def, mBind, hpre, hdoc] using hcall
      have hpin := trace_docCall_pin st1 tr1 _ i hPD1 hmem (fun j hj => by simpa using hj)
      rw [hpin, htr] at hresp
      exact Except.noConfusion hresp
    · cases bb with
      | text t =>
        obtain ⟨st2, hdoc⟩ := docPhase_eval_text env st1 t ss htr
        exfalso
        have hmem : TraceEv.call CallKind.docUpload i ∈
            tr1 ++ [TraceEv.call CallKind.docUpload st1.reqIx] := by
          simpa [verify, verifyBody, bind_def, pure_def, mBind, hpre, hdoc] using hcall
        have hpin := trace_docCall_pin st1 tr1 _ i hPD1 hmem (fun j hj => by simpa using hj)
        rw [hpin, htr] at hresp
        simp at hresp
      | dict dd =>
        by_cases hlen2 : (pyOrList dd.documents []).length < 2
        · obtain ⟨st2, hdoc⟩ := docPhase_eval_fewdocs env st1 dd ss htr hlen2
          refine ⟨?_, ?_, ?_⟩
          · simp [verify, verifyBody, bind_def, pure_def, mBind, hpre, hdoc]
          · have hout : (verify vid env inp).1.message = uploadUrlsFailMsg := by
              simp [verify, verifyBody, bind_def, pure_def, mBind, hpre, hdoc]
            rw [hout]
            decide
          · intro j hj
            have hmem : TraceEv.s3put j ∈
                tr1 ++ [TraceEv.call CallKind.docUpload st1.reqIx,
                  TraceEv.call CallKind.getVerStatus (st1.reqIx + 1)] := by
              simpa [verify, verifyBody, bind_def, pure_def, mBind, hpre, hdoc] using hj
            rcases List.mem_append.mp hmem with h3 | h3
            · exact (hPD1 _ h3).elim
            · simp at h3
        · rcases hdl : pyOrList dd.documents [] with _ | ⟨e0, tl⟩
          · exact absurd (by rw [hdl]; simp : (pyOrList dd.documents []).length < 2) hlen2
          · cases tl with
            | nil =>
              exact absurd (by rw [hdl]; simp : (pyOrList dd.documents []).length < 2) hlen2
            | cons e1 tl2 =>
              have hcontra : i = st1.reqIx → False := by
                intro hpin
                rw [hpin, htr] at hresp
                simp only [Except.ok.injEq, Prod.mk.injEq, JsonBody.dict.injEq] at hresp
                rw [← hresp.1] at hdocs
                exact hlen2 hdocs
              rcases hu0 : e0.uploadUrl with _ | u0
              · obtain ⟨st2, hdoc⟩ := docPhase_eval_noUrl0 env st1 dd ss e0 e1 tl2 htr hdl hu0
                exfalso
                have hmem : TraceEv.call CallKind.docUpload i ∈
                    tr1 ++ [TraceEv.call CallKind.docUpload st1.reqIx] := by
                  simpa [verify, verifyBody, bind_def, pure_def, mBind, hpre, hdoc] using hcall
                exact hcontra (trace_docCall_pin st1 tr1 _ i hPD1 hmem (fun j hj => by simpa using hj))
              · rcases hu1 : e1.uploadUrl with _ | u1
                · obtain ⟨st2, hdoc⟩ :=
                    docPhase_eval_noUrl1 env st1 dd ss e0 e1 tl2 u0 htr hdl hu0 hu1
                  exfalso
                  have hmem : TraceEv.call CallKind.docUpload i ∈
                      tr1 ++ [TraceEv.call CallKind.docUpload st1.reqIx] := by
                    simpa [verify, verifyBody, bind_def, pure_def, mBind, hpre, hdoc] using hcall
                  exact hcontra
                    (trace_docCall_pin st1 tr1 _ i hPD1 hmem (fun j hj => by simpa using hj))
                · by_cases hup0 : env.upload st1.upIx = true
                  · by_cases hup1 : env.upload (st1.upIx + 1) = true
                    · obtain ⟨r, st2, hdoc⟩ := docPhase_eval_done env st1 dd ss e0 e1 tl2
                        u0 u1 htr hdl hu0 hu1 hup0 hup1
                      exfalso
                      cases r with
                      | ok dres =>
                        have hmem : TraceEv.call CallKind.docUpload i ∈
                            tr1 ++ [TraceEv.call CallKind.docUpload st1.reqIx,
                              TraceEv.s3put st1.upIx, TraceEv.s3put (st1.upIx + 1),
                              TraceEv.call CallKind.completeDocUpload (st1.reqIx + 1)] := by
                          simpa [verify, verifyBody, bind_def, pure_def, mBind, hpre, hdoc]
                            using hcall
                        exact hcontra (trace_docCall_pin st1 tr1 _ i hPD1 hmem
                          (fun j hj => by simpa using hj))
                      | error e =>
                        have hmem : TraceEv.call CallKind.docUpload i ∈
                            tr1 ++ [TraceEv.call CallKind.docUpload st1.reqIx,
                              TraceEv.s3put st1.upIx, TraceEv.s3put (st1.upIx + 1),
                              TraceEv.call CallKind.completeDocUpload (st1.reqIx + 1)] := by
                          simpa [verify, verifyBody, bind_def, pure_def, mBind, hpre, hdoc]
                            using hcall
                        exact hcontra (trace_docCall_pin st1 tr1 _ i hPD1 hmem
                          (fun j hj => by simpa using hj))
                    · have hup1f : env.upload (st1.upIx + 1) = false := by
                        revert hup1; cases env.upload (st1.upIx + 1) <;> simp
                      obtain ⟨st2, hdoc⟩ := docPhase_eval_pngFail env st1 dd ss e0 e1 tl2
                        u0 u1 htr hdl hu0 hu1 hup0 hup1f
                      exfalso
                      have hmem : TraceEv.call CallKind.docUpload i ∈
                          tr1 ++ [TraceEv.call CallKind.docUpload st1.reqIx,
                            TraceEv.s3put st1.upIx, TraceEv.s3put (st1.upIx + 1)] := by
                        simpa [verify, verifyBody, bind_def, pure_def, mBind, hpre, hdoc]
                          using hcall
                      exact hcontra
                        (trace_docCall_pin st1 tr1 _ i hPD1 hmem (fun j hj => by simpa using hj))
                  · have hup0f : env.upload st1.upIx = false := by
                      revert hup0; cases env.upload st1.upIx <;> simp
                    obtain ⟨st2, hdoc⟩ := docPhase_eval_pdfFail env st1 dd ss e0 e1 tl2
                      u0 u1 htr hdl hu0 hu1 hup0f
                    exfalso
                    have hmem : TraceEv.call CallKind.docUpload i ∈
                        tr1 ++ [TraceEv.call CallKind.docUpload st1.reqIx,
                          TraceEv.s3put st1.upIx] := by
                      simpa [verify, verifyBody, bind_def, pure_def, mBind, hpre, hdoc]
                        using hcall
                    exact hcontra
                      (trace_docCall_pin st1 tr1 _ i hPD1 hmem (fun j hj => by simpa using hj))

/-- Transport script for the C8 witness: step 2 succeeds, the snapshot is
already at docUpload, and the doc-upload response carries one single
upload target. -/
def env8 : Env := { envBase with
  trans := fun n =>
    match n with
    | 0 => Except.ok (JsonBody.dict emptyResp, 200)
    | 1 => Except.ok (JsonBody.dict { currentStep := some ("docUpload".data) }, 200)
    | 2 => Except.ok (JsonBody.dict { documents := some [⟨some ("u".data)⟩] }, 200)
    | _ => Except.ok (JsonBody.dict emptyResp, 200) }

/-- C8 witness: the concrete one-target run fails with the Upload URLs
message and performs zero upload attempts. -/
theorem C8_wit :
    (verify ("v".data) env8 {}).1 =
      ⟨false, none, uploadUrlsFailMsg, ("v".data), none, none⟩ ∧
    substrOf ("Upload URLs".data) (verify ("v".data) env8 {}).1.message = true ∧
    (∀ j, TraceEv.s3put j ∉ (verify ("v".data) env8 {}).2.2) :=
  C8_thm ("v".data) env8 {} 2 { documents := some [⟨some ("u".data)⟩] } 200
    (by decide) rfl (by decide)

/-- C7: in every run in which the first S3 transfer (the PDF) is attempted
and fails, the run ends in the failed outcome with exactly the message PDF
Upload Failed and the completion endpoint is never invoked; in every run
in which the PDF transfer succeeds and the second transfer (the PNG) is
attempted and fails, the run ends with exactly PNG Upload Failed and the
completion endpoint is never invoked. -/
theorem C7_thm (vid : Str) (env : Env) (inp : VerifyInput) :
    ((TraceEv.s3put 0 ∈ (verify vid env inp).2.2 ∧ env.upload 0 = false) →
      (verify vid env inp).1 = ⟨false, none, pdfFailMsg, vid, none, none⟩ ∧
      (∀ j, TraceEv.call CallKind.completeDocUpload j ∉ (verify vid env inp).2.2))
    ∧ ((env.upload 0 = true ∧ TraceEv.s3put 1 ∈ (verify vid env inp).2.2 ∧
        env.upload 1 = false) →
      (verify vid env inp).1 = ⟨false, none, pngFailMsg, vid, none, none⟩ ∧
      (∀ j, TraceEv.call CallKind.completeDocUpload j ∉ (verify vid env inp).2.2)) := by
  rcases hpre : preDocPart env inp {} with ⟨rp, st1, tr1⟩
  have hPD := emits_preDocPart env inp ({} : VSt)
  rw [hpre] at hPD
  have hPD1 : ∀ ev ∈ tr1, preDocEv ev := hPD.1
  have hup0 : st1.upIx = 0 := by simpa using hPD.2
  constructor
  · rintro ⟨hmem, hupF⟩
    cases rp with
    | error e =>
      exfalso
      have hmem1 : TraceEv.s3put 0 ∈ tr1 := by
        simpa [verify, verifyBody, bind_def, pure_def, mBind, hpre] using hmem
      exact (hPD1 _ hmem1).elim
    | ok u =>
      rcases htr : env.trans st1.reqIx with e | ⟨bb, ss⟩
      · obtain ⟨st2, hdoc⟩ := docPhase_eval_err env st1 e htr
        exfalso
        have hmem1 : TraceEv.s3put 0 ∈
            tr1 ++ [TraceEv.call CallKind.docUpload st1.reqIx] := by
          simpa [verify, verifyBody, bind_def, pure_def, mBind, hpre, hdoc] using hmem
        rcases List.mem_append.mp hmem1 with h3 | h3
        · exact (hPD1 _ h3).elim
        · simp at h3
      · cases bb with
        | text t =>
          obtain ⟨st2, hdoc⟩ := docPhase_eval_text env st1 t ss htr
          exfalso
          have hmem1 : TraceEv.s3put 0 ∈
              tr1 ++ [TraceEv.call CallKind.docUpload st1.reqIx] := by
            simpa [verify, verifyBody, bind_def, pure_def, mBind, hpre, hdoc] using hmem
          rcases List.mem_append.mp hmem1 with h3 | h3
          · exact (hPD1 _ h3).elim
          · simp at h3
        | dict dd =>
          by_cases hlen2 : (pyOrList dd.documents []).length < 2
          · obtain ⟨st2, hdoc⟩ := docPhase_eval_fewdocs env st1 dd ss htr hlen2
            exfalso
            have hmem1 : TraceEv.s3put 0 ∈
                tr1 ++ [TraceEv.call CallKind.docUpload st1.reqIx,
                  TraceEv.call CallKind.getVerStatus (st1.reqIx + 1)] := by
              simpa [verify, verifyBody, bind_def, pure_def, mBind, hpre, hdoc] using hmem
            rcases List.mem_append.mp hmem1 with h3 | h3
            · exact (hPD1 _ h3).elim
            · simp at h3
          · rcases hdl : pyOrList dd.documents [] with _ | ⟨e0, tl⟩
            · exact absurd (by rw [hdl]; simp : (pyOrList dd.documents []).length < 2) hlen2
            · cases tl with
              | nil =>
                exact absurd
                  (by rw [hdl]; simp : (pyOrList dd.documents []).length < 2) hlen2
              | cons e1 tl2 =>
                rcases hu0e : e0.uploadUrl with _ | u0
                · obtain ⟨st2, hdoc⟩ :=
                    docPhase_eval_noUrl0 env st1 dd ss e0 e1 tl2 htr hdl hu0e
                  exfalso
                  have hmem1 : TraceEv.s3put 0 ∈
                      tr1 ++ [TraceEv.call CallKind.docUpload st1.reqIx] := by
                    simpa [verify, verifyBody, bind_def, pure_def, mBind, hpre, hdoc]
                      using hmem
                  rcases List.mem_append.mp hmem1 with h3 | h3
                  · exact (hPD1 _ h3).elim
                  · simp at h3
                · rcases hu1e : e1.uploadUrl with _ | u1
                  · obtain ⟨st2, hdoc⟩ :=
                      docPhase_eval_noUrl1 env st1 dd ss e0 e1 tl2 u0 htr hdl hu0e hu1e
                    exfalso
                    have hmem1 : TraceEv.s3put 0 ∈
                        tr1 ++ [TraceEv.call CallKind.docUpload st1.reqIx] := by
                      simpa [verify, verifyBody, bind_def, pure_def, mBind, hpre, hdoc]
                        using hmem
                    rcases List.mem_append.mp hmem1 with h3 | h3
                    · exact (hPD1 _ h3).elim
                    · simp at h3
                  · have hupxf : env.upload st1.upIx = false := by rw [hup0]; exact hupF
                    obtain ⟨st2, hdoc⟩ := docPhase_eval_pdfFail env st1 dd ss e0 e1 tl2
                      u0 u1 htr hdl hu0e hu1e hupxf
                    constructor
                    · simp [verify, verifyBody, bind_def, pure_def, mBind, hpre, hdoc]
                    · intro j hj
                      have hmem1 : TraceEv.call CallKind.completeDocUpload j ∈
                          tr1 ++ [TraceEv.call CallKind.docUpload st1.reqIx,
                            TraceEv.s3put st1.upIx] := by
                        simpa [verify, verifyBody, bind_def, pure_def, mBind, hpre, hdoc]
                          using hj
                      rcases List.mem_append.mp hmem1 with h3 | h3
                      · exact (hPD1 _ h3).elim
                      · simp at h3
  · rintro ⟨hupT, hmem, hupF⟩
    cases rp with
    | error e =>
      exfalso
      have hmem1 : TraceEv.s3put 1 ∈ tr1 := by
        simpa [verify, verifyBody, bind_def, pure_def, mBind, hpre] using hmem
      exact (hPD1 _ hmem1).elim
    | ok u =>
      rcases htr : env.trans st1.reqIx with e | ⟨bb, ss⟩
      · obtain ⟨st2, hdoc⟩ := docPhase_eval_err env st1 e htr
        exfalso
        have hmem1 : TraceEv.s3put 1 ∈
            tr1 ++ [TraceEv.call CallKind.docUpload st1.reqIx] := by
          simpa [verify, verifyBody, bind_def, pure_def, mBind, hpre, hdoc] using hmem
        rcases List.mem_append.mp hmem1 with h3 | h3
        · exact (hPD1 _ h3).elim
        · simp at h3
      · cases bb with
        | text t =>
          obtain ⟨st2, hdoc⟩ := docPhase_eval_text env st1 t ss htr
          exfalso
          have hmem1 : TraceEv.s3put 1 ∈
              tr1 ++ [TraceEv.call CallKind.docUpload st1.reqIx] := by
            simpa [verify, verifyBody, bind_def, pure_def, mBind, hpre, hdoc] using hmem
          rcases List.mem_append.mp hmem1 with h3 | h3
          · exact (hPD1 _ h3).elim
          · simp at h3
        | dict dd =>
          by_cases hlen2 : (pyOrList dd.documents []).length < 2
          · obtain ⟨st2, hdoc⟩ := docPhase_eval_fewdocs env st1 dd ss htr hlen2
            exfalso
            have hmem1 : TraceEv.s3put 1 ∈
                tr1 ++ [TraceEv.call CallKind.docUpload st1.reqIx,
                  TraceEv.call CallKind.getVerStatus (st1.reqIx + 1)] := by
              simpa [verify, verifyBody, bind_def, pure_def, mBind, hpre, hdoc] using hmem
            rcases List.mem_append.mp hmem1 with h3 | h3
            · exact (hPD1 _ h3).elim
            · simp at h3
          · rcases hdl : pyOrList dd.documents [] with _ | ⟨e0, tl⟩
            · exact absurd (by rw [hdl]; simp : (pyOrList dd.documents []).length < 2) hlen2
            · cases tl with
              | nil =>
                exact absurd
                  (by rw [hdl]; simp : (pyOrList dd.documents []).length < 2) hlen2
              | cons e1 tl2 =>
                rcases hu0e : e0.uploadUrl with _ | u0
                · obtain ⟨st2, hdoc⟩ :=
                    docPhase_eval_noUrl0 env st1 dd ss e0 e1 tl2 htr hdl hu0e
                  exfalso
                  have hmem1 : TraceEv.s3put 1 ∈
                      tr1 ++ [TraceEv.call CallKind.docUpload st1.reqIx] := by
                    simpa [verify, verifyBody, bind_def, pure_def, mBind, hpre, hdoc]
                      using hmem
                  rcases List.mem_append.mp hmem1 with h3 | h3
                  · exact (hPD1 _ h3).elim
                  · simp at h3
                · rcases hu1e : e1.uploadUrl with _ | u1
                  · obtain ⟨st2, hdoc⟩ :=
                      docPhase_eval_noUrl1 env st1 dd ss e0 e1 tl2 u0 htr hdl hu0e hu1e
                    exfalso
                    have hmem1 : TraceEv.s3put 1 ∈
                        tr1 ++ [TraceEv.call CallKind.docUpload st1.reqIx] := by
                      simpa [verify, verifyBody, bind_def, pure_def, mBind, hpre, hdoc]
                        using hmem
                    rcases List.mem_append.mp hmem1 with h3 | h3
                    · exact (hPD1 _ h3).elim
                    · simp at h3
                  · have hupxT : env.upload st1.upIx = true := by rw [hup0]; exact hupT
                    have hupyF : env.upload (st1.upIx + 1) = false := by
                      rw [hup0]
                      simpa using hupF
                    obtain ⟨st2, hdoc⟩ := docPhase_eval_pngFail env st1 dd ss e0 e1 tl2
                      u0 u1 htr hdl hu0e hu1e hupxT hupyF
                    constructor
                    · simp [verify, verifyBody, bind_def, pure_def, mBind, hpre, hdoc]
                    · intro j hj
                      have hmem1 : TraceEv.call CallKind.completeDocUpload j ∈
                          tr1 ++ [TraceEv.call CallKind.docUpload st1.reqIx,
                            TraceEv.s3put st1.upIx, TraceEv.s3put (st1.upIx + 1)] := by
                        simpa [verify, verifyBody, bind_def, pure_def, mBind, hpre, hdoc]
                          using hj
                      rcases List.mem_append.mp hmem1 with h3 | h3
                      · exact (hPD1 _ h3).elim
                      · simp at h3

/-- Transport script for the C7 witness: upload targets arrive, but every
S3 put fails. -/
def env7 : Env := { envBase with
  upload := fun _ => false
  trans := fun n =>
    match n with
    | 0 => Except.ok (JsonBody.dict emptyResp, 200)
    | 1 => Except.ok (JsonBody.dict { currentStep := some ("docUpload".data) }, 200)
    | 2 => Except.ok (JsonBody.dict
        { documents := some [⟨some ("u".data)⟩, ⟨some ("w".data)⟩] }, 200)
    | _ => Except.ok (JsonBody.dict emptyResp, 200) }

/-- C7 witness: the concrete failing-PDF run ends with the PDF message and
never touches the completion endpoint. -/
theorem C7_wit :
    (verify ("v".data) env7 {}).1 = ⟨false, none, pdfFailMsg, ("v".data), none, none⟩ ∧
    (∀ j, TraceEv.call CallKind.completeDocUpload j ∉ (verify ("v".data) env7 {}).2.2) :=
  (C7_thm ("v".data) env7 {}).1 ⟨by decide, rfl⟩
